import Mathlib

/-!
# mkdeb (package `deb`, v2): control metadata, collectors and archive assembly

A shallow embedding of `src/v2/deb/{control,deb,data,files}.go`.

* Go `string` values are Lean `String`s, `[]string` are `List String`.
* `error` results are `Option`/`Except` values; an error made by `fmt.Errorf`
  keeps its format string and its operands.
* `int64` values are `Int`s, wrapped into the 64-bit range where the code adds.
* Library code the package calls (`text/template`, `regexp`, `path/filepath`,
  `vfs`, `ar`) is modelled by small executable definitions, each documented
  where it is introduced.
-/

namespace Deb

/-! ## Control (control.go:23-42) -/

/-- Control represents the debian binary control file (control.go:24). -/
structure Control where
  Package : String
  Version : String
  Architecture : String
  Maintainer : String
  Description : String
  Depends : List String
  PreDepends : List String
  Conflicts : List String
  Breaks : List String
  Replaces : List String
  Section : String
  Priority : String
  Homepage : String
deriving DecidableEq, Repr

/-- The zero value `Control{}`. -/
def Control.zero : Control :=
  { Package := "", Version := "", Architecture := "", Maintainer := "",
    Description := "", Depends := [], PreDepends := [], Conflicts := [],
    Breaks := [], Replaces := [], Section := "", Priority := "", Homepage := "" }

/-- Method `withDefaults` (control.go:249): Priority defaults to "optional". -/
def Control.withDefaults (c : Control) : Control :=
  if c.Priority = "" then { c with Priority := "optional" } else c

deriving instance DecidableEq for Except

/-! ## Errors and formatting -/

/-- An error made by `fmt.Errorf`: the format string and its operands, in order. -/
structure Errorf where
  format : String
  args : List String
deriving DecidableEq, Repr

/-- Expand the `%s` verbs of a format over string operands; there is no result when the
format has another verb or the operands do not match the verbs in number. -/
def sprintfChars : List Char → List String → Option (List Char)
  | [], [] => some []
  | [], _ :: _ => none
  | '%' :: 's' :: rest, a :: as => (sprintfChars rest as).map (a.toList ++ ·)
  | '%' :: _, _ => none
  | c :: rest, as => (sprintfChars rest as).map (c :: ·)

/-- The function `fmt.Sprintf` on formats whose verbs are all `%s`. -/
def Sprintf (format : String) (args : List String) : Option String :=
  (sprintfChars format.toList args).map String.mk

/-- Method `Error()` of an error made by `fmt.Errorf`, for formats whose verbs are all `%s`. -/
def Errorf.Error (e : Errorf) : Option String :=
  Sprintf e.format e.args

/-! ## The control template (control.go:341-379)

The template source is kept as its sequence of text runs and actions, with the
trim markers `{{-` and `-}}` of each action recorded; `trimItems` does what the
template lexer does with them, and `exec` runs the result. -/

/-- String-valued fields of the template's data. -/
inductive Field
  | Package | Version | Architecture | Maintainer | Description
  | Section | Priority | Homepage
deriving DecidableEq, Repr

/-- List-valued fields of the template's data. -/
inductive ListField
  | Depends | PreDepends | Conflicts | Breaks | Replaces
deriving DecidableEq, Repr

/-- The pipelines that occur in the template. -/
inductive Pipeline
  /-- A string field, such as `.Package`. -/
  | field (f : Field)
  /-- The field `.InstalledSize`. -/
  | installedSize
  /-- A joined list, such as `join .Depends`. -/
  | join (l : ListField)
  /-- A list length test, such as `(len .Depends) gt 0`. -/
  | lenListGt0 (l : ListField)
  /-- A string length test, such as `(len .Section) gt 0`. -/
  | lenStringGt0 (f : Field)
deriving DecidableEq, Repr

/-- One element of the template source. -/
inductive Item
  /-- Literal text between two actions. -/
  | text (s : String)
  /-- A printing action; the flags say whether it is written with a left and a right trim marker. -/
  | action (trimLeft : Bool) (p : Pipeline) (trimRight : Bool)
  /-- An `if` action. -/
  | ifAction (trimLeft : Bool) (p : Pipeline) (trimRight : Bool)
  /-- An `end` action. -/
  | endAction (trimLeft : Bool) (trimRight : Bool)
deriving DecidableEq, Repr

/-- The block `{{- if (len .L) gt 0 }}⏎Key: {{ join .L }}⏎{{- end ?}}⏎` of a list field;
`r` is the right trim marker of its `end`. -/
def listBlock (key : String) (l : ListField) (r : Bool) : List Item :=
  [ .ifAction true (.lenListGt0 l) false,
    .text ("\n" ++ key ++ ": "), .action false (.join l) false, .text "\n",
    .endAction true r, .text "\n" ]

/-- The opening part of the block `{{- if (len .F) gt 0 }}⏎Key: {{ .F }}⏎{{- end }}` of a
string field, without the text that follows its `end`. -/
def stringBlock (key : String) (f : Field) : List Item :=
  [ .ifAction true (.lenStringGt0 f) false,
    .text ("\n" ++ key ++ ": "), .action false (.field f) false, .text "\n",
    .endAction true false ]

/-- Source of `controlTemplate` (control.go:349-379). -/
def controlTemplate : List Item :=
  [ .text "Package: ", .action false (.field .Package) false,
    .text "\nVersion: ", .action false (.field .Version) false,
    .text "\nArchitecture: ", .action false (.field .Architecture) false,
    .text "\nMaintainer: ", .action false (.field .Maintainer) false,
    .text "\nInstalled-Size: ", .action false .installedSize false,
    .text "\n" ]
  ++ listBlock "Pre-Depends" .PreDepends true
  ++ listBlock "Depends" .Depends true
  ++ listBlock "Conflicts" .Conflicts true
  ++ listBlock "Breaks" .Breaks true
  ++ listBlock "Replaces" .Replaces false
  ++ stringBlock "Section" .Section ++ [ .text "\n" ]
  ++ stringBlock "Priority" .Priority ++ [ .text "\n" ]
  ++ stringBlock "Homepage" .Homepage
  ++ [ .text "\nDescription: ", .action false (.field .Description) false, .text "\n" ]

/-- The characters a trim marker removes: space, tab, carriage return, newline. -/
def isSpace (c : Char) : Bool :=
  c = ' ' || c = '\t' || c = '\r' || c = '\n'

/-- Remove leading white space. -/
def trimLeftSpace (s : String) : String :=
  String.mk (s.toList.dropWhile isSpace)

/-- Remove trailing white space. -/
def trimRightSpace (s : String) : String :=
  String.mk ((s.toList.reverse.dropWhile isSpace).reverse)

/-- Whether the next item is an action written with a left trim marker. -/
def nextTrimsLeft : List Item → Bool
  | .action l _ _ :: _ => l
  | .ifAction l _ _ :: _ => l
  | .endAction l _ :: _ => l
  | _ => false

/-- The right trim marker of an item (none for text). -/
def Item.trimsRight : Item → Bool
  | .action _ _ r => r
  | .ifAction _ _ r => r
  | .endAction _ r => r
  | .text _ => false

/-- What the lexer does with trim markers: a text run loses its leading white space
when the action before it has a right marker (`afterRight`) and its trailing white space
when the action after it has a left marker. -/
def trimItems : Bool → List Item → List Item
  | _, [] => []
  | afterRight, .text s :: rest =>
      let s1 := if afterRight then trimLeftSpace s else s
      let s2 := if nextTrimsLeft rest then trimRightSpace s1 else s1
      .text s2 :: trimItems false rest
  | _, it :: rest => it :: trimItems it.trimsRight rest

/-- The data the template is executed on: the struct built in `WriteControl`. -/
structure TemplateData where
  control : Control
  InstalledSize : Int

/-- A value produced by a pipeline. -/
inductive Value
  | str (s : String)
  | int (n : Int)

/-- Selector of a string field. -/
def Field.get (c : Control) : Field → String
  | .Package => c.Package
  | .Version => c.Version
  | .Architecture => c.Architecture
  | .Maintainer => c.Maintainer
  | .Description => c.Description
  | .Section => c.Section
  | .Priority => c.Priority
  | .Homepage => c.Homepage

/-- Selector of a list field. -/
def ListField.get (c : Control) : ListField → List String
  | .Depends => c.Depends
  | .PreDepends => c.PreDepends
  | .Conflicts => c.Conflicts
  | .Breaks => c.Breaks
  | .Replaces => c.Replaces

/-- The template function `join` (control.go:345): `strings.Join(s, ", ")`. -/
def join (s : List String) : String :=
  String.intercalate ", " s

/-- How `text/template` executes a command whose first word is a parenthesised pipeline
with further words after it, as `(len .X) gt 0` is. -/
inductive TemplateEngine
  /-- Up to Go 1.13: the words after the pipeline take no part, the value is that of
  `len .X`. -/
  | ignoresArguments
  /-- Since Go 1.14: execution fails, a pipeline is given arguments and is no function. -/
  | rejectsArguments
deriving DecidableEq, Repr

/-- The error of executing a parenthesised pipeline that is given arguments. -/
def argumentError (pipeline : String) : Errorf :=
  { format := "can't give argument to non-function %s", args := [pipeline] }

/-- The name of a string field. -/
def Field.name : Field → String
  | .Package => "Package"
  | .Version => "Version"
  | .Architecture => "Architecture"
  | .Maintainer => "Maintainer"
  | .Description => "Description"
  | .Section => "Section"
  | .Priority => "Priority"
  | .Homepage => "Homepage"

/-- The name of a list field. -/
def ListField.name : ListField → String
  | .Depends => "Depends"
  | .PreDepends => "PreDepends"
  | .Conflicts => "Conflicts"
  | .Breaks => "Breaks"
  | .Replaces => "Replaces"

/-- The value of `(len .X) gt 0` for a length: the command's first word is the
parenthesised pipeline `len .X`; the engine either takes its value or fails. -/
def lenGt0 (engine : TemplateEngine) (field : String) (len : Nat) : Except Errorf Value :=
  match engine with
  | .ignoresArguments => .ok (.int len)
  | .rejectsArguments => .error (argumentError ("(len ." ++ field ++ ")"))

/-- Evaluate a pipeline. -/
def Pipeline.eval (engine : TemplateEngine) (d : TemplateData) :
    Pipeline → Except Errorf Value
  | .field f => .ok (.str (f.get d.control))
  | .installedSize => .ok (.int d.InstalledSize)
  | .join l => .ok (.str (Deb.join (l.get d.control)))
  | .lenListGt0 l => lenGt0 engine l.name (l.get d.control).length
  | .lenStringGt0 f => lenGt0 engine f.name (f.get d.control).utf8ByteSize

/-- How a value is printed. -/
def Value.print : Value → String
  | .str s => s
  | .int n => toString n

/-- Truth of a value in an `if`: a number is true when non-zero, a string when non-empty. -/
def Value.truth : Value → Bool
  | .str s => s ≠ ""
  | .int n => n ≠ 0

/-- Put text before what the rest of an execution writes. -/
def emit (s : String) (r : String × Option Errorf) : String × Option Errorf :=
  (s ++ r.1, r.2)

/-- Execute a trimmed template: the text written, and the error that ended the
execution if one did. `conds` holds the conditions of the enclosing `if`s, innermost
first; an action is executed only where all of them are true. -/
def exec (engine : TemplateEngine) (d : TemplateData) :
    List Bool → List Item → String × Option Errorf
  | _, [] => ("", none)
  | conds, .text s :: rest =>
      emit (if conds.all id then s else "") (exec engine d conds rest)
  | conds, .action _ p _ :: rest =>
      if conds.all id then
        match p.eval engine d with
        | .error err => ("", some err)
        | .ok v => emit v.print (exec engine d conds rest)
      else exec engine d conds rest
  | conds, .ifAction _ p _ :: rest =>
      if conds.all id then
        match p.eval engine d with
        | .error err => ("", some err)
        | .ok v => exec engine d (v.truth :: conds) rest
      else exec engine d (false :: conds) rest
  | conds, .endAction _ _ :: rest => exec engine d conds.tail rest

/-- Method `WriteControl` (control.go:256): the text written into `wr` and the error
returned, those of `controlTemplate.Execute` on the control with its defaults applied,
together with the installed size. The template writes as it goes, so what was written
before an error stays written. -/
def WriteControl (engine : TemplateEngine) (c : Control) (installedSize : Int) :
    String × Option Errorf :=
  exec engine { control := c.withDefaults, InstalledSize := installedSize } []
    (trimItems false controlTemplate)

/-! ## The control text as the specification words it -/

/-- One line `Key: value` with its newline. -/
def fieldLine (key value : String) : String :=
  key ++ ": " ++ value ++ "\n"

/-- The line of a list field, present only when the list is non-empty. -/
def listLine (key : String) (items : List String) : String :=
  if items = [] then "" else fieldLine key (String.intercalate ", " items)

/-- The line of an optional string field, present only when it is non-empty. -/
def optionalLine (key value : String) : String :=
  if value = "" then "" else fieldLine key value

/-- The control text as specified: the fields in their fixed order. -/
def controlText (c : Control) (n : Int) : String :=
  fieldLine "Package" c.Package
  ++ fieldLine "Version" c.Version
  ++ fieldLine "Architecture" c.Architecture
  ++ fieldLine "Maintainer" c.Maintainer
  ++ fieldLine "Installed-Size" (toString n)
  ++ listLine "Pre-Depends" c.PreDepends
  ++ listLine "Depends" c.Depends
  ++ listLine "Conflicts" c.Conflicts
  ++ listLine "Breaks" c.Breaks
  ++ listLine "Replaces" c.Replaces
  ++ optionalLine "Section" c.Section
  ++ optionalLine "Priority" (if c.Priority = "" then "optional" else c.Priority)
  ++ optionalLine "Homepage" c.Homepage
  ++ fieldLine "Description" c.Description

/-- The text of the five leading fields, up to the installed size and without the newline
after it. -/
def leadingText (c : Control) (n : Int) : String :=
  "Package: " ++ c.Package ++ "\nVersion: " ++ c.Version ++ "\nArchitecture: " ++
    c.Architecture ++ "\nMaintainer: " ++ c.Maintainer ++ "\nInstalled-Size: " ++ toString n

/-! ## Regular expressions (control.go:334-339)

A compiled `regexp.Regexp` is modelled by its source text and the regular expression
between the anchors `^` and `$`; with both anchors `MatchString` holds exactly when the
whole string is in the language of that expression, which the derivative matcher
`RegularExpression.rmatch` decides. A lazy `*?` accepts the same strings as `*`. -/

/-- A compiled regular expression of the form `^body$`. -/
structure Regexp where
  source : String
  body : RegularExpression Char

/-- The characters `lo` to `hi`, as in a class range `lo-hi`. -/
def charRange (lo hi : Char) : List Char :=
  (List.range (hi.toNat + 1 - lo.toNat)).map (fun i => Char.ofNat (lo.toNat + i))

/-- A character class `[...]` listing its members. -/
def oneOf (cs : List Char) : RegularExpression Char :=
  cs.foldr (fun c r => RegularExpression.char c + r) 0

/-- A literal run of characters. -/
def lit (s : String) : RegularExpression Char :=
  s.toList.foldr (fun c r => RegularExpression.char c * r) 1

/-- The operator `?`: zero or one occurrence. -/
def opt (r : RegularExpression Char) : RegularExpression Char :=
  1 + r

/-- The operator `+`: one or more occurrences. -/
def many1 (r : RegularExpression Char) : RegularExpression Char :=
  r * RegularExpression.star r

/-- The class `[a-zA-Z0-9.+_-]`. -/
def nameClass : List Char :=
  charRange 'a' 'z' ++ charRange 'A' 'Z' ++ charRange '0' '9' ++ ['.', '+', '_', '-']

/-- The class `[0-9]`. -/
def digitClass : List Char :=
  charRange '0' '9'

/-- The class `[0-9a-zA-Z.-]`. -/
def versionClass : List Char :=
  charRange '0' '9' ++ charRange 'a' 'z' ++ charRange 'A' 'Z' ++ ['.', '-']

/-- The group `([0-9][0-9a-zA-Z.-]*?)`. -/
def versionExpr : RegularExpression Char :=
  oneOf digitClass * RegularExpression.star (oneOf versionClass)

/-- Variable `reDepends` (control.go:335). -/
def reDepends : Regexp :=
  { source := "^[a-zA-Z0-9.+_-]+( \\((>|>=|<|<=|=) ([0-9][0-9a-zA-Z.-]*?)\\))?$"
    body := many1 (oneOf nameClass) *
      opt (lit " (" * (lit ">" + lit ">=" + lit "<" + lit "<=" + lit "=") * lit " " *
        versionExpr * lit ")") }

/-- Variable `reReplacesEtc` (control.go:338). -/
def reReplacesEtc : Regexp :=
  { source := "^[a-zA-Z0-9.+_-]+( \\(<< ([0-9][0-9a-zA-Z.-]*?)\\))?$"
    body := many1 (oneOf nameClass) *
      opt (lit " (<< " * versionExpr * lit ")") }

/-- Method `MatchString` of an anchored expression. -/
def Regexp.MatchString (re : Regexp) (s : String) : Bool :=
  re.body.rmatch s.toList

/-- Method `String()`: the source text the expression was compiled from. -/
def Regexp.String (re : Regexp) : String :=
  re.source

/-! ## Validate (control.go:267-332) -/

/-- Variable `supportedArchitectures` (control.go:390). -/
def supportedArchitectures : List String :=
  [ "all", "amd64", "arm64", "armel", "armhf", "i386", "mips", "mipsel", "powerpc",
    "ppc64el", "s390x" ]

/-- Variable `controlFiles` (control.go:383). -/
def controlFiles : List String :=
  [ "preinst", "postinst", "prerm", "postrm" ]

/-- The closure `hasString` of `Validate` (control.go:293). -/
def hasString : List String → String → Bool
  | [], _ => false
  | item :: items, search => if item = search then true else hasString items search

/-- The required fields found empty, in the order `Validate` tests them (control.go:273-288). -/
def missingFields (p : Control) : List String :=
  let missing : List String := []
  let missing := if p.Package = "" then missing ++ ["package"] else missing
  let missing := if p.Version = "" then missing ++ ["version"] else missing
  let missing := if p.Architecture = "" then missing ++ ["architecture"] else missing
  let missing := if p.Maintainer = "" then missing ++ ["maintainer"] else missing
  let missing := if p.Description = "" then missing ++ ["description"] else missing
  missing

/-- One of the five loops of `Validate` (control.go:306-330): the error of the first
entry that does not match `re`, made from `format`. -/
def checkEntries (re : Regexp) (format : String) : List String → Option Errorf
  | [] => none
  | dep :: rest =>
      if !re.MatchString dep then some { format := format, args := [dep, re.String] }
      else checkEntries re format rest

/-- Method `Validate` (control.go:270); `none` is the `nil` error. -/
def Validate (p : Control) : Option Errorf :=
  let p := p.withDefaults
  let missing := missingFields p
  if missing.length > 0 then
    some { format := "These required fields are missing: %s",
           args := [String.intercalate ", " missing] }
  else if !hasString supportedArchitectures p.Architecture then
    some { format := "Arch %q is not supported; expected one of %s",
           args := [p.Architecture, String.intercalate ", " supportedArchitectures] }
  else
    (checkEntries reDepends
      "Dependency %q is invalid; expected something like 'libc (= 5.1.2)' matching %q"
      p.Depends).orElse fun _ =>
    (checkEntries reDepends
      "PreDependency %q is invalid; expected something like 'libc (= 5.1.2)' matching %q"
      p.PreDepends).orElse fun _ =>
    (checkEntries reReplacesEtc
      "Replacement %q is invalid; expected something like 'libc (<< 5.1.2)' matching %q"
      p.Replaces).orElse fun _ =>
    (checkEntries reReplacesEtc
      "Conflict %q is invalid; expected something like 'libc (<< 5.1.2)' matching %q"
      p.Conflicts).orElse fun _ =>
    checkEntries reReplacesEtc
      "Break %q is invalid; expected something like 'libc (<< 5.1.2)' matching %q"
      p.Breaks

/-! ## File system views (library `vfs`)

A `vfs.NameSpace` is modelled by what the package observes of it: the sequence of calls
`vfs.Walk("/", fs, fn)` makes to `fn` as long as `fn` returns `nil` (depth first, names in
lexical order, the root `/` first), and the outcome of `fs.Open` for a path. -/

/-- A sequence of bytes. -/
abbrev Bytes := List UInt8

/-- An `error` value. -/
abbrev Error := Errorf

/-- An error that does not come from `fmt.Errorf`, with its message. -/
def Error.ofMessage (msg : String) : Error :=
  { format := msg, args := [] }

/-- What the package reads of an `os.FileInfo`. -/
structure FileInfo where
  /-- Method `IsDir()`. -/
  IsDir : Bool
  /-- Method `Size()`, an `int64`. -/
  Size : Int
  /-- The permission bits of `Mode()`. -/
  Mode : Nat
deriving DecidableEq, Repr

/-- One call of the walk function: its three arguments. -/
structure WalkEntry where
  path : String
  info : FileInfo
  err : Option Error
deriving DecidableEq, Repr

/-- An opened file as a reader: the bytes it yields, and the error that ends the reading
when it is not `io.EOF`. -/
structure File where
  content : Bytes
  readErr : Option Error
deriving DecidableEq, Repr

/-- A view of a `vfs.NameSpace`. -/
structure NameSpace where
  /-- The calls `vfs.Walk("/", fs, fn)` makes while `fn` returns `nil`. -/
  entries : List WalkEntry
  /-- Method `Open`. -/
  Open : String → Except Error File

/-- Function `vfs.Walk("/", fs, fn)`: `fn` is called for each entry in turn and the walk
ends with the first error `fn` returns. The variables `fn` captures and updates are
passed as the state `s`. -/
def walkEntries {σ : Type} (fn : σ → WalkEntry → σ × Option Error) :
    σ → List WalkEntry → σ × Option Error
  | s, [] => (s, none)
  | s, e :: rest =>
    match fn s e with
    | (s1, some err) => (s1, some err)
    | (s1, none) => walkEntries fn s1 rest

/-- Function `vfs.Walk("/", fs, fn)` on a view. -/
def Walk {σ : Type} (fs : NameSpace) (fn : σ → WalkEntry → σ × Option Error) (s : σ) :
    σ × Option Error :=
  walkEntries fn s fs.entries

/-- Function `io.Copy(dst, file)` into a writer that accepts everything: the bytes
copied, and the reader's error. -/
def File.copyAll (f : File) : Bytes × Option Error :=
  (f.content, f.readErr)

/-! ## Checksums (control.go:68-99) -/

/-- The digits of `encoding/hex`. -/
def hexDigits : List Char :=
  "0123456789abcdef".toList

/-- The hexadecimal digit of a number below sixteen. -/
def hexDigit (n : Nat) : Char :=
  hexDigits.getD n '0'

/-- Function `hex.EncodeToString`: two digits for each byte, high half first. -/
def EncodeToString (src : Bytes) : String :=
  String.mk (src.flatMap fun b => [hexDigit (b.toNat / 16), hexDigit (b.toNat % 16)])

/-- A hash function as `crypto/md5` provides it: the checksum is sixteen bytes. -/
structure Hash where
  Sum : Bytes → Bytes
  size_eq : ∀ b, (Sum b).length = 16

/-- The walk function of `md5sums` (control.go:77-97); the state is the buffer. -/
def md5sumsFn (hash : Hash) (fs : NameSpace) (buf : String) (e : WalkEntry) :
    String × Option Error :=
  match e.err with
  | some err => (buf, some err)
  | none =>
    if e.info.IsDir then (buf, none)
    else
      match fs.Open e.path with
      | .error err => (buf, some err)
      | .ok file =>
        match file.copyAll with
        | (_, some err) => (buf, some err)
        | (data, none) =>
          let hexSum := EncodeToString (hash.Sum data)
          (buf ++ (hexSum ++ "  " ++ e.path ++ "\n"), none)

/-- Function `md5sums` (control.go:75): the result of `vfs.Walk` is not looked at, and
the error returned is always `nil`. -/
def md5sums (hash : Hash) (fs : NameSpace) : String × Option Error :=
  let r := Walk fs (md5sumsFn hash fs) ""
  (r.1, none)

/-! ## Installed size (control.go:129-149) -/

/-- A value brought into the range of `int64`. -/
def wrap64 (n : Int) : Int :=
  (n + 2 ^ 63) % 2 ^ 64 - 2 ^ 63

/-- The walk function of `vfsTotalFileSize` (control.go:131-140); the state is `size`. -/
def totalSizeFn (size : Int) (e : WalkEntry) : Int × Option Error :=
  match e.err with
  | some err => (size, some err)
  | none =>
    if e.info.IsDir then (size, none)
    else (wrap64 (size + e.info.Size), none)

/-- Function `vfsTotalFileSize` (control.go:129); `%` and `/` are those of Go, which
truncate toward zero. -/
def vfsTotalFileSize (fs : NameSpace) : Int × Option Error :=
  let size := (Walk fs totalSizeFn 0).1
  let size :=
    if Int.tmod size 1024 > 0 then wrap64 (Int.tdiv size 1024 + 1)
    else Int.tdiv size 1024
  (size, none)

/-! ## Glob matching (library `path/filepath`, Unix)

`Match` is ported on characters: `*` matches any run of characters other than `/`, `?`
one character other than `/`, `[...]` a class, `\` quotes the next character. Loops
whose bound is not a list run on a count of rounds that the length of the pattern
covers. A chunk stops being read where it fails to match, as up to Go 1.15: a pattern
that is malformed after that place gives no match and no error, where Go 1.16 and later
give `ErrBadPattern`. The one pattern `BuildArchive` passes, `/etc/*/**`, is well formed. -/

/-- The error `filepath.ErrBadPattern`. -/
def ErrBadPattern : Error :=
  Error.ofMessage "syntax error in pattern"

/-- The leading stars of a pattern: whether there is one, and what follows them. -/
def dropStars : List Char → Bool × List Char
  | [] => (false, [])
  | c :: rest => if c = '*' then (true, (dropStars rest).2) else (false, c :: rest)

/-- The scan of `scanChunk`: the chunk up to the next `*` that is not inside a class,
and the rest of the pattern; `quoted` says that the character before was a `\`. -/
def splitChunk : Bool → Bool → List Char → List Char × List Char
  | _, _, [] => ([], [])
  | inrange, quoted, c :: rest =>
    if quoted then
      let r := splitChunk inrange false rest
      (c :: r.1, r.2)
    else if c = '\\' then
      let r := splitChunk inrange true rest
      (c :: r.1, r.2)
    else if c = '[' then
      let r := splitChunk true false rest
      (c :: r.1, r.2)
    else if c = ']' then
      let r := splitChunk false false rest
      (c :: r.1, r.2)
    else if c = '*' && !inrange then ([], c :: rest)
    else
      let r := splitChunk inrange false rest
      (c :: r.1, r.2)

/-- Function `scanChunk`: whether the chunk is preceded by a star, the chunk, the rest. -/
def scanChunk (pattern : List Char) : Bool × List Char × List Char :=
  let s := dropStars pattern
  let r := splitChunk false false s.2
  (s.1, r.1, r.2)

/-- Function `getEsc`: one possibly quoted character of a class, and what follows it. -/
def getEsc : List Char → Except Error (Char × List Char)
  | [] => .error ErrBadPattern
  | c :: chunk =>
    if c = '-' || c = ']' then .error ErrBadPattern
    else if c = '\\' then
      match chunk with
      | [] => .error ErrBadPattern
      | r :: nchunk => if nchunk = [] then .error ErrBadPattern else .ok (r, nchunk)
    else if chunk = [] then .error ErrBadPattern
    else .ok (c, chunk)

/-- The range loop of a class in `matchChunk`: whether `r` is in one of the ranges, and
what follows the closing bracket. -/
def matchRanges (r : Char) : Nat → Nat → Bool → List Char → Except Error (Bool × List Char)
  | 0, _, _, _ => .error ErrBadPattern
  | fuel + 1, nrange, matched, chunk =>
    if chunk.head? = some ']' && nrange > 0 then .ok (matched, chunk.tail)
    else
      match getEsc chunk with
      | .error e => .error e
      | .ok (lo, chunk1) =>
        if chunk1.head? = some '-' then
          match getEsc chunk1.tail with
          | .error e => .error e
          | .ok (hi, chunk2) =>
            matchRanges r fuel (nrange + 1) (matched || (lo ≤ r && r ≤ hi)) chunk2
        else matchRanges r fuel (nrange + 1) (matched || (lo ≤ r && r ≤ lo)) chunk1

/-- The loop of `matchChunk`: the rest of `s` when the chunk matches a beginning of it. -/
def matchChunkLoop : Nat → List Char → List Char → Except Error (Option (List Char))
  | 0, _, _ => .ok none
  | fuel + 1, chunk, s =>
    match chunk with
    | [] => .ok (some s)
    | c :: chunk1 =>
      match s with
      | [] => .ok none
      | r :: s1 =>
        if c = '[' then
          let negated := chunk1.head? = some '^'
          let chunk2 := if negated then chunk1.tail else chunk1
          match matchRanges r (chunk2.length + 1) 0 false chunk2 with
          | .error e => .error e
          | .ok (matched, chunk3) =>
            if matched = negated then .ok none else matchChunkLoop fuel chunk3 s1
        else if c = '?' then
          if r = '/' then .ok none else matchChunkLoop fuel chunk1 s1
        else if c = '\\' then
          match chunk1 with
          | [] => .error ErrBadPattern
          | d :: chunk2 => if d ≠ r then .ok none else matchChunkLoop fuel chunk2 s1
        else if c ≠ r then .ok none
        else matchChunkLoop fuel chunk1 s1

/-- Function `matchChunk`. -/
def matchChunk (chunk s : List Char) : Except Error (Option (List Char)) :=
  matchChunkLoop (chunk.length + 1) chunk s

/-- The inner loop of `Match` for a chunk after a star: the chunk is tried after each
character of the name up to the first `/`. -/
def starSkip (chunk : List Char) (last : Bool) : List Char → Except Error (Option (List Char))
  | [] => .ok none
  | c :: name1 =>
    if c = '/' then .ok none
    else
      match matchChunk chunk name1 with
      | .error e => .error e
      | .ok (some t) =>
        if last && t ≠ [] then starSkip chunk last name1 else .ok (some t)
      | .ok none => starSkip chunk last name1

/-- The outer loop of `Match`. -/
def matchLoop : Nat → List Char → List Char → Except Error Bool
  | 0, _, _ => .ok false
  | fuel + 1, pattern, name =>
    if pattern = [] then .ok (name = [])
    else
      let sc := scanChunk pattern
      let star := sc.1
      let chunk := sc.2.1
      let rest := sc.2.2
      if star && chunk = [] then .ok (!name.contains '/')
      else
        match matchChunk chunk name with
        | .error e => .error e
        | .ok r =>
          match (r.filter fun t => t = [] || rest ≠ []) with
          | some t => matchLoop fuel rest t
          | none =>
            if star then
              match starSkip chunk (rest = []) name with
              | .error e => .error e
              | .ok (some t) => matchLoop fuel rest t
              | .ok none => .ok false
            else .ok false

/-- Function `filepath.Match`. -/
def Match (pattern name : String) : Except Error Bool :=
  matchLoop (pattern.length + 1) pattern.toList name.toList

/-! ## Conffiles (control.go:101-127) -/

/-- The loop over the patterns in the walk function of `confFiles` (control.go:110-119):
whether the path is to be written, or the error of a pattern. -/
def matchAny (path : String) : List String → Except Error Bool
  | [] => .ok false
  | pattern :: rest =>
    match Match pattern path with
    | .error err => .error err
    | .ok true => .ok true
    | .ok false => matchAny path rest

/-- The walk function of `confFiles` (control.go:103-121); the state is the buffer. -/
def confFilesFn (patterns : List String) (buf : String) (e : WalkEntry) :
    String × Option Error :=
  match e.err with
  | some err => (buf, some err)
  | none =>
    if e.info.IsDir then (buf, none)
    else
      match matchAny e.path patterns with
      | .error err => (buf, some err)
      | .ok true => (buf ++ (e.path ++ "\n"), none)
      | .ok false => (buf, none)

/-- Function `confFiles` (control.go:101): the result of `vfs.Walk` is not looked at;
writing the final newline into the buffer cannot fail. -/
def confFiles (fs : NameSpace) (patterns : List String) : String × Option Error :=
  let r := Walk fs (confFilesFn patterns) ""
  (r.1 ++ "\n", none)

/-- The message of an error: its format with the operands put in when every verb is
`%s`, and the format itself otherwise. -/
def Errorf.text (e : Errorf) : String :=
  e.Error.getD e.format

/-! ## Composed views (library `vfs`)

The three operations `BuildArchive` composes its control view with, on views whose
files all lie in the root directory (the only ones the generated map has). -/

/-- The bytes of a Go string. -/
def stringBytes (s : String) : Bytes :=
  s.toList.flatMap String.utf8EncodeChar

/-- The path without one leading `/`: `strings.TrimPrefix(path, "/")`. -/
def trimSlash (path : String) : String :=
  match path.toList with
  | '/' :: rest => String.mk rest
  | _ => path

/-- The order of names in a directory listing, on their characters. -/
def ltChars : List Char → List Char → Bool
  | _, [] => false
  | [], _ :: _ => true
  | a :: as, b :: bs =>
    if a.toNat < b.toNat then true
    else if b.toNat < a.toNat then false
    else ltChars as bs

/-- The order of names in a directory listing. -/
def nameLt (a b : String) : Bool :=
  ltChars a.toList b.toList

/-- Insert a name into a list sorted by name. -/
def insertByName (kv : String × String) : List (String × String) → List (String × String)
  | [] => [kv]
  | x :: rest => if nameLt kv.1 x.1 then kv :: x :: rest else x :: insertByName kv rest

/-- A map from names to contents, sorted by name, a later value of a name replacing an
earlier one: how a Go map is listed by a walk. -/
def sortByName : List (String × String) → List (String × String)
  | [] => []
  | kv :: rest => insertByName kv ((sortByName rest).filter fun x => x.1 ≠ kv.1)

/-- The root directory as a walk meets it. -/
def rootEntry : WalkEntry :=
  { path := "/", info := { IsDir := true, Size := 0, Mode := 0o555 }, err := none }

/-- Function `vfs.Map`: an in-memory file system of the given files; the keys have no
leading slash, a file reports its length and the mode `0444`. -/
def vfsMap (files : List (String × String)) : NameSpace :=
  { entries := rootEntry :: (sortByName files).map fun kv =>
      { path := "/" ++ kv.1
        info := { IsDir := false, Size := (stringBytes kv.2).length, Mode := 0o444 }
        err := none }
    Open := fun path =>
      match (sortByName files).find? (fun kv => "/" ++ kv.1 = path) with
      | some kv => .ok { content := stringBytes kv.2, readErr := none }
      | none => .error (Error.ofMessage "file does not exist") }

/-- The mode a mode map gives to a name, if any. -/
def lookupMode (modes : List (String × Nat)) (name : String) : Option Nat :=
  (modes.find? fun m => m.1 = name).map Prod.snd

/-- Function `vfs.ModeMap`: the wrapped file system with the mode of each listed name
replaced; the keys have no leading slash. -/
def ModeMap (fs : NameSpace) (modes : List (String × Nat)) : NameSpace :=
  { entries := fs.entries.map fun e =>
      match lookupMode modes (trimSlash e.path) with
      | some m => { e with info := { e.info with Mode := m } }
      | none => e
    Open := fs.Open }

/-- Insert an entry into a list of entries sorted by path. -/
def insertByPath (e : WalkEntry) : List WalkEntry → List WalkEntry
  | [] => [e]
  | x :: rest => if nameLt e.path x.path then e :: x :: rest else x :: insertByPath e rest

/-- A name space with `first` bound at `/` and `second` bound after it at `/`: a path
that both have is answered by `first`, and the walk lists the root and then the files
of both by name. -/
def bindAfter (first second : NameSpace) : NameSpace :=
  { entries :=
      (second.entries.filter fun e => !first.entries.any fun x => x.path = e.path).foldr
        insertByPath first.entries
    Open := fun path =>
      match first.Open path with
      | .ok f => .ok f
      | .error err =>
        match second.Open path with
        | .ok f => .ok f
        | .error _ => .error err }

/-! ## Tar archives (library `tar`) -/

/-- The fields of a `tar.Header` the package sets or that come from the file info. -/
structure TarHeader where
  Name : String
  Mode : Nat
  Size : Int
  IsDir : Bool
  Uid : Option Nat
  Gid : Option Nat
  Uname : String
  Gname : String
  ModTime : Option Nat
deriving DecidableEq, Repr

/-- One member of a tar archive: its header and the bytes written after it. -/
structure TarMember where
  header : TarHeader
  body : Bytes
deriving DecidableEq, Repr

/-- Function `tar.FileInfoHeader(fi, "")`: name and owner are left to the caller;
`none` stands for a value taken from the source. -/
def FileInfoHeader (fi : FileInfo) : TarHeader :=
  { Name := "", Mode := fi.Mode, Size := fi.Size, IsDir := fi.IsDir, Uid := none,
    Gid := none, Uname := "", Gname := "", ModTime := none }

/-- The error `tar.ErrWriteTooLong`. -/
def ErrWriteTooLong : Error :=
  Error.ofMessage "archive/tar: write too long"

/-- What the package cannot decide about its surroundings: the toolchain, the clock, the
outcome of each file operation, and the bytes a compressed archive takes on disk. -/
structure Env where
  /-- The `text/template` of the toolchain the package is built with. -/
  template : TemplateEngine
  /-- Function `time.Now()`. -/
  now : Nat
  /-- The checksum of `crypto/md5`. -/
  md5 : Hash
  /-- Function `ioutil.TempDir("", "mkdeb")`. -/
  tempDir : Except Error String
  /-- Function `os.MkdirAll(path, 0755)`. -/
  mkdirAll : String → Option Error
  /-- Function `os.Create(path)`. -/
  create : String → Option Error
  /-- Writing the header of the named member into an archive. -/
  writeHeader : String → Option Error
  /-- Writing the body of the named member into an archive. -/
  writeBody : String → Option Error
  /-- The bytes of the gzip stream of a tar archive. -/
  compress : List TarMember → Bytes
  /-- Function `os.Stat(path)` of a file just written with the given bytes: its size. -/
  stat : String → Bytes → Except Error Int
  /-- Function `os.Open(path)` of a file just written with the given bytes. -/
  openFile : String → Bytes → Except Error File
  /-- Closing the outer archive and its file. -/
  close : Option Error

/-- Type `Files` (files.go:13). -/
structure Files where
  /-- The data archive. -/
  Data : NameSpace
  /-- The control archive. -/
  Control : NameSpace
  /-- Glob option; documented (files.go:16) as: defaults to "/etc/*/**", use a single
  dash "-" to disable default value. -/
  Conffiles : List String

/-- The walk function of `BuildArchive` (control.go:214-245) and of `createDataArchive`
(data.go:35-65); the state is the archive written so far. -/
def archiveFn (env : Env) (fs : NameSpace) (setDefaults : TarHeader → TarHeader)
    (archive : List TarMember) (e : WalkEntry) : List TarMember × Option Error :=
  match e.err with
  | some err => (archive, some err)
  | none =>
    let h := setDefaults (FileInfoHeader e.info)
    let filename := trimSlash e.path
    if filename = "" then (archive, none)
    else
      let h := { h with Name := filename }
      match env.writeHeader filename with
      | some err => (archive, some err)
      | none =>
        if !e.info.IsDir then
          match fs.Open e.path with
          | .error err => (archive ++ [{ header := h, body := [] }], some err)
          | .ok f =>
            let data := f.content.take h.Size.toNat
            let member : TarMember := { header := h, body := data }
            if f.content.length > h.Size.toNat then (archive ++ [member], some ErrWriteTooLong)
            else
              match env.writeBody filename with
              | some err => (archive ++ [{ header := h, body := [] }], some err)
              | none => (archive ++ [member], f.readErr)
        else (archive ++ [{ header := h, body := [] }], none)

/-- The generated files of `BuildArchive` (control.go:152-178), in the order they are
put into the map, or the first error of a collector. -/
def generatedFiles (env : Env) (c : Control) (fspec : Files) :
    Except Error (List (String × String)) :=
  let fsmap : List (String × String) := []
  match md5sums env.md5 fspec.Data with
  | (_, some err) => .error err
  | (sumData, none) =>
    let fsmap := fsmap ++ [("md5sums", sumData)]
    match confFiles fspec.Data ["/etc/*/**"] with
    | (_, some err) => .error err
    | (confData, none) =>
      let fsmap := fsmap ++ [("conffiles", confData)]
      match vfsTotalFileSize fspec.Data with
      | (_, some err) => .error err
      | (size, none) =>
        match WriteControl env.template c size with
        | (_, some err) => .error err
        | (text, none) => .ok (fsmap ++ [("control", text)])

/-- The mode map of `BuildArchive` (control.go:179-187); what is assigned later stands
first, so that a lookup finds the last assignment of a name. -/
def modeMap : List (String × Nat) :=
  let mmap : List (String × Nat) := controlFiles.map fun v => (v, 0o775)
  (["control", "md5sums", "conffiles"].map fun v => (v, 0o644)) ++ mmap

/-- The closure `setDefaults` of `BuildArchive` (control.go:208). -/
def controlDefaults (env : Env) (h : TarHeader) : TarHeader :=
  { h with ModTime := some env.now, Uname := "root", Gname := "root" }

/-- The view `BuildArchive` walks (control.go:204-206): the control view of the caller,
and after it the generated files under the mode map. -/
def controlView (fspec : Files) (fsmap : List (String × String)) : NameSpace :=
  bindAfter fspec.Control (ModeMap (vfsMap fsmap) modeMap)

/-- Method `BuildArchive` (control.go:151): the error returned, and the members written
into the archive at `target`. The result of `vfs.Walk` is not looked at. -/
def BuildArchive (env : Env) (c : Control) (target : String) (fspec : Files) :
    Option Error × List TarMember :=
  match generatedFiles env c fspec with
  | .error err => (some err, [])
  | .ok fsmap =>
    match env.create target with
    | some err =>
      (some { format := "Failed to create control archive %q: %s",
              args := [target, err.text] }, [])
    | none =>
      let fs := controlView fspec fsmap
      let r := Walk fs (archiveFn env fs (controlDefaults env)) []
      (none, r.1)

/-- The closure `setDefaults` of `createDataArchive` (data.go:28). -/
def dataDefaults (h : TarHeader) : TarHeader :=
  { h with Uid := some 0, Gid := some 0, Uname := "root", Gname := "root" }

/-- Function `createDataArchive` (data.go:15). -/
def createDataArchive (env : Env) (target : String) (fs : NameSpace) :
    Option Error × List TarMember :=
  match env.create target with
  | some err =>
    (some { format := "Failed to create data archive %q: %s",
            args := [target, err.text] }, [])
  | none =>
    let r := Walk fs (archiveFn env fs dataDefaults) []
    (r.2, r.1)

/-! ## The outer container (deb.go, library `ar`) -/

/-- Type `ar.Header`. -/
structure ArHeader where
  Name : String
  ModTime : Nat
  Uid : Nat
  Gid : Nat
  Mode : Nat
  Size : Int
deriving DecidableEq, Repr

/-- One member of the container: its header and the payload written after it. -/
structure ArMember where
  header : ArHeader
  body : Bytes
deriving DecidableEq, Repr

/-- Type `debWriter` (deb.go:30) over an `ar.Writer`: the members written so far, the
last one being the current one, and the number of bytes its header still allows. -/
structure debWriter where
  members : List ArMember
  nb : Int
deriving DecidableEq, Repr

/-- Method `WriteHeader` of `ar.Writer`. -/
def debWriter.WriteHeader (env : Env) (d : debWriter) (h : ArHeader) :
    debWriter × Option Error :=
  match env.writeHeader h.Name with
  | some err => (d, some err)
  | none => ({ members := d.members ++ [{ header := h, body := [] }], nb := h.Size }, none)

/-- Append bytes to the payload of the current member. -/
def appendBody (members : List ArMember) (data : Bytes) : List ArMember :=
  match members.reverse with
  | [] => []
  | m :: before => (({ m with body := m.body ++ data } : ArMember) :: before).reverse

/-- The name of the current member. -/
def debWriter.current (d : debWriter) : String :=
  match d.members.reverse with
  | [] => ""
  | m :: _ => m.header.Name

/-- Function `io.Copy(d, r)`: the bytes of `r` are written into the current member, no
more of them than its header allows; the number written and the error: of the writer when
`r` holds more than the header allows or the write fails, else of the reader. -/
def debWriter.Copy (env : Env) (d : debWriter) (r : File) : debWriter × Int × Option Error :=
  match env.writeBody d.current with
  | some err => (d, 0, some err)
  | none =>
    let data := r.content.take d.nb.toNat
    let d1 : debWriter := { members := appendBody d.members data, nb := d.nb - data.length }
    if r.content.length > d.nb.toNat then (d1, data.length, some ErrWriteTooLong)
    else (d1, data.length, r.readErr)

/-- Method `writeDebianBinary` (deb.go:34). -/
def debWriter.writeDebianBinary (env : Env) (d : debWriter) : debWriter × Option Error :=
  let r : File := { content := stringBytes "2.0\n", readErr := none }
  let h : ArHeader :=
    { ModTime := env.now, Uid := 0, Gid := 0, Mode := 0o600, Size := r.content.length,
      Name := "debian-binary" }
  match d.WriteHeader env h with
  | (d1, some err) => (d1, some err)
  | (d1, none) =>
    match d1.Copy env r with
    | (d2, _, some err) => (d2, some err)
    | (d2, _, none) => (d2, none)

/-- Method `writeFile` (deb.go:53). -/
def debWriter.writeFile (env : Env) (d : debWriter) (name : String) (r : File) (size : Int) :
    debWriter × Option Error :=
  let h : ArHeader :=
    { ModTime := env.now, Uid := 0, Gid := 0, Mode := 0o600, Size := size, Name := name }
  match d.WriteHeader env h with
  | (d1, some err) => (d1, some err)
  | (d1, none) =>
    match d1.Copy env r with
    | (d2, _, some err) => (d2, some err)
    | (d2, n, none) =>
      if n ≠ size then
        (d2, some { format := "bytes written does not match with provided size: %v : %v",
                    args := [toString n, toString size] })
      else (d2, none)

/-- Method `debFilename` (control.go:64). -/
def Control.debFilename (c : Control) : String :=
  (Sprintf "%s-%s-%s.deb" [c.Package, c.Version, c.Architecture]).getD ""

/-- Functions `path.Join` and `filepath.Join` of a directory and a name. -/
def joinPath (dir name : String) : String :=
  dir ++ "/" ++ name

/-- One of the two blocks of `createDeb` (deb.go:164-202) after the archive has been
built: the file at `path`, holding `written`, is read back into the member `name`. -/
def addArchive (env : Env) (d : debWriter) (name path : String) (written : Bytes) :
    debWriter × Option Error :=
  match env.stat path written with
  | .error err => (d, some err)
  | .ok size =>
    match env.openFile path written with
    | .error err => (d, some err)
    | .ok f => d.writeFile env name f size

/-- Function `createDeb` (deb.go:130): the error returned, and the container written.
The error of `Validate` is logged and not returned. -/
def createDeb (env : Env) (target : String) (fspec : Files) (c : Control) :
    Option Error × debWriter :=
  let archive : debWriter := { members := [], nb := 0 }
  match env.tempDir with
  | .error err =>
    (some { format := "Could not create build workspace: %v", args := [err.text] }, archive)
  | .ok ws =>
    match env.mkdirAll target with
    | some err =>
      (some { format := "Unable to create target directory %q: %s",
              args := [target, err.text] }, archive)
    | none =>
      match env.create (joinPath target c.debFilename) with
      | some err =>
        (some { format := "Failed to create build target: %s", args := [err.text] }, archive)
      | none =>
        match archive.writeDebianBinary env with
        | (archive, some err) =>
          (some { format := "Failed to write debian-binary: %v", args := [err.text] }, archive)
        | (archive, none) =>
          let controlFile := joinPath ws "control.tar.gz"
          match BuildArchive env c controlFile fspec with
          | (some err, _) =>
            (some { format := "Failed to compress control files: %v", args := [err.text] },
              archive)
          | (none, controlMembers) =>
            match addArchive env archive "control.tar.gz" controlFile
                (env.compress controlMembers) with
            | (archive, some err) => (some err, archive)
            | (archive, none) =>
              let dataFile := joinPath ws "data.tar.gz"
              match createDataArchive env dataFile fspec.Data with
              | (some err, _) =>
                (some { format := "Failed to compress data files: %s", args := [err.text] },
                  archive)
              | (none, dataMembers) =>
                match addArchive env archive "data.tar.gz" dataFile
                    (env.compress dataMembers) with
                | (archive, some err) => (some err, archive)
                | (archive, none) => (env.close, archive)

/-! ## The dependency grammars as the specification words them -/

/-- A letter, a digit, or one of `.`, `+`, `_`, `-`. -/
def isNameChar (c : Char) : Bool :=
  c.isAlpha || c.isDigit || c = '.' || c = '+' || c = '_' || c = '-'

/-- A letter, a digit, or one of `.`, `-`. -/
def isVersionChar (c : Char) : Bool :=
  c.isAlpha || c.isDigit || c = '.' || c = '-'

/-- A name: a non-empty run of name characters. -/
def IsName (s : List Char) : Prop :=
  s ≠ [] ∧ ∀ c ∈ s, isNameChar c = true

/-- A version: a digit followed by any run of version characters. -/
def IsVersion (v : List Char) : Prop :=
  ∃ d rest, v = d :: rest ∧ d.isDigit = true ∧ ∀ c ∈ rest, isVersionChar c = true

/-- The grammar `name[ (OP version)]` with `OP` one of `ops`. -/
def MatchesGrammar (ops : List String) (s : String) : Prop :=
  ∃ name, IsName name ∧
    (s.toList = name ∨
      ∃ op ∈ ops, ∃ version, IsVersion version ∧
        s.toList = name ++ " (".toList ++ op.toList ++ " ".toList ++ version ++ ")".toList)

/-- The operators of a dependency: `=`, `>=`, `<=`, `>`, `<`. -/
def dependsOps : List String :=
  ["=", ">=", "<=", ">", "<"]

/-- The only operator of a replacement, conflict or break: `<<`. -/
def replacesOps : List String :=
  ["<<"]

/-- The conditions under which a control is valid, as specified. -/
def ValidControl (c : Control) : Prop :=
  c.Package ≠ "" ∧ c.Version ≠ "" ∧ c.Architecture ≠ "" ∧ c.Maintainer ≠ "" ∧
  c.Description ≠ "" ∧
  c.Architecture ∈ [ "all", "amd64", "arm64", "armel", "armhf", "i386", "mips", "mipsel",
    "powerpc", "ppc64el", "s390x" ] ∧
  (∀ d ∈ c.Depends, MatchesGrammar dependsOps d) ∧
  (∀ d ∈ c.PreDepends, MatchesGrammar dependsOps d) ∧
  (∀ d ∈ c.Replaces, MatchesGrammar replacesOps d) ∧
  (∀ d ∈ c.Conflicts, MatchesGrammar replacesOps d) ∧
  (∀ d ∈ c.Breaks, MatchesGrammar replacesOps d)

/-- The names of the required fields that are empty, in the fixed order package, version,
architecture, maintainer, description. -/
def emptyRequired (c : Control) : List String :=
  ([ ("package", c.Package), ("version", c.Version), ("architecture", c.Architecture),
     ("maintainer", c.Maintainer), ("description", c.Description) ].filter
    (fun kv => kv.2 = "")).map Prod.fst

/-- The error of one malformed entry of a dependency list. -/
def entryError (re : Regexp) (format : String) (dep : String) : Errorf :=
  { format := format, args := [dep, re.source] }

/-- The errors of all malformed entries of a dependency list, in input order. -/
def entryErrors (re : Regexp) (format : String) (deps : List String) : List Errorf :=
  (deps.filter (fun d => !re.MatchString d)).map (entryError re format)

/-- Every violation of a control, each as the error that reports it, in the order the
checks are listed: required fields (all the empty ones in one error), architecture, then
the entries of Depends, PreDepends, Replaces, Conflicts and Breaks. -/
def violationErrors (c : Control) : List Errorf :=
  (if emptyRequired c = [] then []
   else [{ format := "These required fields are missing: %s",
           args := [String.intercalate ", " (emptyRequired c)] }])
  ++ (if c.Architecture ∈ supportedArchitectures then []
      else [{ format := "Arch %q is not supported; expected one of %s",
              args := [c.Architecture, String.intercalate ", " supportedArchitectures] }])
  ++ entryErrors reDepends
      "Dependency %q is invalid; expected something like 'libc (= 5.1.2)' matching %q"
      c.Depends
  ++ entryErrors reDepends
      "PreDependency %q is invalid; expected something like 'libc (= 5.1.2)' matching %q"
      c.PreDepends
  ++ entryErrors reReplacesEtc
      "Replacement %q is invalid; expected something like 'libc (<< 5.1.2)' matching %q"
      c.Replaces
  ++ entryErrors reReplacesEtc
      "Conflict %q is invalid; expected something like 'libc (<< 5.1.2)' matching %q"
      c.Conflicts
  ++ entryErrors reReplacesEtc
      "Break %q is invalid; expected something like 'libc (<< 5.1.2)' matching %q"
      c.Breaks

/-- Split a text at its newlines. -/
def linesOf : List Char → List (List Char)
  | [] => [[]]
  | c :: cs =>
    match linesOf cs with
    | [] => [[c]]
    | l :: ls => if c = '\n' then [] :: l :: ls else (c :: l) :: ls

/-- Whether some line of the text is a field with the given key. -/
def hasKey (text : String) (key : String) : Bool :=
  (linesOf text.toList).any (fun l => (key ++ ":").toList.isPrefixOf l)

/-- A control used by the package's tests (package_test.go:6). -/
def exampleBasic : Control :=
  { Control.zero with
    Architecture := "amd64"
    Maintainer := "Chris Bednarski <banzaimonkey@gmail.com>"
    Package := "mkdeb"
    Version := "0.1.0"
    Homepage := "https://github.com/cbednarski/mkdeb"
    Description := "A CLI tool for building debian packages" }

/-- The value a violation is about: the first operand of its error. -/
def Errorf.offender (v : Errorf) : String :=
  v.args.headD ""

/-- The error returned by `Validate` reports every violation of the control: the value
each violation is about is among the operands of the returned error. -/
def ReportsAll (c : Control) : Prop :=
  ∀ v ∈ violationErrors c, ∃ e, Validate c = some e ∧ v.offender ∈ e.args

/-- A control with an unsupported architecture and a malformed Depends entry. -/
def badArchAndDepends : Control :=
  { exampleBasic with Architecture := "sparc", Depends := ["libc (5.1.2)"] }

/-- A control with a malformed Depends entry and a malformed Replaces entry. -/
def badDependsAndReplaces : Control :=
  { exampleBasic with Depends := ["libc (5.1.2)"], Replaces := ["debpkg (>= 1.0)"] }

/-- A valid control whose optional fields are all empty. -/
def requiredOnly : Control :=
  { exampleBasic with Homepage := "" }

/-- The control of `TestRenderControlFileBasic` (control_test.go:16): the basic example
with version 0.1.0 and section `default`. -/
def basicWithSection : Control :=
  { exampleBasic with Section := "default" }

/-- The keys of the optional fields other than Priority. -/
def optionalKeys : List String :=
  ["Pre-Depends", "Depends", "Conflicts", "Breaks", "Replaces", "Section", "Homepage"]

/-- A value that holds no newline. -/
def SingleLine (s : String) : Prop :=
  ∀ c ∈ s.toList, c ≠ '\n'

/-! ## Collectors as the specification words them -/

/-- The walk of the view meets no error. -/
def NameSpace.WalksCleanly (fs : NameSpace) : Prop :=
  ∀ e ∈ fs.entries, e.err = none

/-- The entries of the view that are not directories, in walk order. -/
def NameSpace.fileEntries (fs : NameSpace) : List WalkEntry :=
  fs.entries.filter fun e => !e.info.IsDir

/-- Every file of the view opens and is read to its end without an error. -/
def NameSpace.ReadsCleanly (fs : NameSpace) : Prop :=
  ∀ e ∈ fs.fileEntries, ∃ data, fs.Open e.path = .ok { content := data, readErr := none }

/-- The full content of a file of the view (empty when it does not open). -/
def NameSpace.contentOf (fs : NameSpace) (path : String) : Bytes :=
  match fs.Open path with
  | .ok file => file.content
  | .error _ => []

/-- One line of the checksum manifest. -/
def checksumLine (hash : Hash) (fs : NameSpace) (e : WalkEntry) : String :=
  EncodeToString (hash.Sum (fs.contentOf e.path)) ++ "  " ++ e.path ++ "\n"

/-- The sum of the sizes of the entries that are not directories. -/
def NameSpace.totalBytes (fs : NameSpace) : Int :=
  (fs.fileEntries.map fun e => e.info.Size).sum

/-- Lines put one after the other. -/
def concatLines : List String → String
  | [] => ""
  | l :: ls => l ++ concatLines ls

/-- A view made of the root directory and one file for each given content. -/
def viewOfFiles (files : List (String × Bytes)) : NameSpace :=
  { entries :=
      { path := "/", info := { IsDir := true, Size := 4096, Mode := 0o755 }, err := none } ::
      files.map fun f =>
        { path := f.1, info := { IsDir := false, Size := f.2.length, Mode := 0o644 },
          err := none }
    Open := fun path =>
      match files.find? (fun f => f.1 = path) with
      | some f => .ok { content := f.2, readErr := none }
      | none => .error (Error.ofMessage "file does not exist") }

/-- A checksum function used for examples only: sixteen bytes, the first one the
length of the input modulo 256. -/
def lengthHash : Hash :=
  { Sum := fun b => UInt8.ofNat b.length :: List.replicate 15 0
    size_eq := fun _ => rfl }

/-- A view with a directory and two files whose sizes add up to 1025 bytes. -/
def view1025 : NameSpace :=
  viewOfFiles [("/a", List.replicate 1000 0), ("/b", List.replicate 25 1)]

/-! ## Example surroundings and inputs -/

/-- Surroundings in which no operation fails: the template executes as the tests of the
package expect (a toolchain up to Go 1.13), a file holds the bytes written to it, and a
compressed archive is stood for by one byte per member. -/
def quietEnv : Env :=
  { template := .ignoresArguments
    now := 0
    md5 := lengthHash
    tempDir := .ok "/tmp/mkdeb"
    mkdirAll := fun _ => none
    create := fun _ => none
    writeHeader := fun _ => none
    writeBody := fun _ => none
    compress := fun members => members.map fun _ => 0
    stat := fun _ written => .ok written.length
    openFile := fun _ written => .ok { content := written, readErr := none }
    close := none }

/-- A view with files of the given modes and contents, all in the root directory. -/
def viewOfModes (files : List (String × Nat × Bytes)) : NameSpace :=
  { entries :=
      { path := "/", info := { IsDir := true, Size := 4096, Mode := 0o755 }, err := none } ::
      files.map fun f =>
        { path := f.1, info := { IsDir := false, Size := f.2.2.length, Mode := f.2.1 },
          err := none }
    Open := fun path =>
      match files.find? (fun f => f.1 = path) with
      | some f => .ok { content := f.2.2, readErr := none }
      | none => .error (Error.ofMessage "file does not exist") }

/-- Files with no data and, in the control view, a `preinst` script of mode `0755`. -/
def filesWithPreinst : Files :=
  { Data := viewOfFiles []
    Control := viewOfModes [("/preinst", 0o755, stringBytes "#!/bin/sh\n")]
    Conffiles := [] }

/-- A data view with one file two levels below `/etc` and one file below `/opt`. -/
def dataWithConfig : NameSpace :=
  { entries :=
      [ { path := "/", info := { IsDir := true, Size := 0, Mode := 0o755 }, err := none },
        { path := "/etc", info := { IsDir := true, Size := 0, Mode := 0o755 }, err := none },
        { path := "/etc/app", info := { IsDir := true, Size := 0, Mode := 0o755 },
          err := none },
        { path := "/etc/app/app.conf", info := { IsDir := false, Size := 3, Mode := 0o644 },
          err := none },
        { path := "/opt", info := { IsDir := true, Size := 0, Mode := 0o755 }, err := none },
        { path := "/opt/tool.conf", info := { IsDir := false, Size := 3, Mode := 0o644 },
          err := none } ]
    Open := fun _ => .ok { content := [107, 61, 118], readErr := none } }

/-- The conffiles manifest `BuildArchive` generates: the content it puts under the
name `conffiles`. -/
def conffilesManifest (env : Env) (c : Control) (fspec : Files) : Option String :=
  match generatedFiles env c fspec with
  | .ok fsmap => (fsmap.find? fun kv => kv.1 = "conffiles").map Prod.snd
  | .error _ => none

/-- The names and modes of the members of an archive. -/
def memberModes (members : List TarMember) : List (String × Nat) :=
  members.map fun m => (m.header.Name, m.header.Mode)

/-! ## Inputs with a failing entry -/

/-- The error of an open that fails. -/
def openFailed : Error :=
  Error.ofMessage "permission denied"

/-- A view that lists the given files in its root directory and fails to open them. -/
def unreadableView (paths : List String) : NameSpace :=
  { entries :=
      { path := "/", info := { IsDir := true, Size := 4096, Mode := 0o755 }, err := none } ::
      paths.map fun p =>
        { path := p, info := { IsDir := false, Size := 10, Mode := 0o755 }, err := none }
    Open := fun _ => .error openFailed }

/-- Files with no data and, in the control view, a `preinst` script that cannot be
opened. -/
def filesWithUnreadableScript : Files :=
  { Data := viewOfFiles []
    Control := unreadableView ["/preinst"]
    Conffiles := [] }

/-- Files whose data view holds one file that cannot be opened. -/
def filesWithUnreadableData : Files :=
  { Data := unreadableView ["/usr"]
    Control := viewOfFiles []
    Conffiles := [] }

/-- The names of the members of an archive with the sizes their headers declare and the
numbers of bytes written for them. -/
def memberSizes (members : List TarMember) : List (String × Int × Nat) :=
  members.map fun m => (m.header.Name, m.header.Size, m.body.length)

set_option maxRecDepth 100000

/-! ## The control template -/

theorem trimmed_eq : trimItems false controlTemplate =
  [ .text "Package: ", .action false (.field .Package) false,
    .text "\nVersion: ", .action false (.field .Version) false,
    .text "\nArchitecture: ", .action false (.field .Architecture) false,
    .text "\nMaintainer: ", .action false (.field .Maintainer) false,
    .text "\nInstalled-Size: ", .action false .installedSize false,
    .text "",
    .ifAction true (.lenListGt0 .PreDepends) false, .text "\nPre-Depends: ",
    .action false (.join .PreDepends) false, .text "", .endAction true true, .text "",
    .ifAction true (.lenListGt0 .Depends) false, .text "\nDepends: ",
    .action false (.join .Depends) false, .text "", .endAction true true, .text "",
    .ifAction true (.lenListGt0 .Conflicts) false, .text "\nConflicts: ",
    .action false (.join .Conflicts) false, .text "", .endAction true true, .text "",
    .ifAction true (.lenListGt0 .Breaks) false, .text "\nBreaks: ",
    .action false (.join .Breaks) false, .text "", .endAction true true, .text "",
    .ifAction true (.lenListGt0 .Replaces) false, .text "\nReplaces: ",
    .action false (.join .Replaces) false, .text "", .endAction true false, .text "",
    .ifAction true (.lenStringGt0 .Section) false, .text "\nSection: ",
    .action false (.field .Section) false, .text "", .endAction true false, .text "",
    .ifAction true (.lenStringGt0 .Priority) false, .text "\nPriority: ",
    .action false (.field .Priority) false, .text "", .endAction true false, .text "",
    .ifAction true (.lenStringGt0 .Homepage) false, .text "\nHomepage: ",
    .action false (.field .Homepage) false, .text "", .endAction true false,
    .text "\nDescription: ", .action false (.field .Description) false, .text "\n" ] := by
  decide

theorem utf8ByteSize_go_pos (c : Char) (cs : List Char) :
    0 < String.utf8ByteSize.go (c :: cs) := by
  simp only [String.utf8ByteSize.go]
  have := Char.utf8Size_pos c
  omega

theorem utf8ByteSize_eq_zero (s : String) : s.utf8ByteSize = 0 ↔ s = "" := by
  constructor
  · intro h
    rcases s with ⟨l⟩
    cases l with
    | nil => rfl
    | cons c cs =>
      have := utf8ByteSize_go_pos c cs
      simp only [String.utf8ByteSize] at h
      omega
  · rintro rfl; rfl

theorem list_length_int_ne (l : List String) :
    (decide ((l.length : Int) ≠ 0)) = decide (l ≠ []) := by
  cases l
  · simp
  · simp; omega

theorem string_size_int_ne (s : String) :
    (decide ((s.utf8ByteSize : Int) ≠ 0)) = decide (s ≠ "") := by
  by_cases h : s = ""
  · subst h; rfl
  · have := (utf8ByteSize_eq_zero s).not.mpr h
    simp [h]; omega


theorem withDefaults_Priority (c : Control) :
    c.withDefaults.Priority = (if c.Priority = "" then "optional" else c.Priority) := by
  unfold Control.withDefaults; split <;> simp_all

theorem withDefaults_fields (c : Control) :
    c.withDefaults.Package = c.Package ∧ c.withDefaults.Version = c.Version ∧
    c.withDefaults.Architecture = c.Architecture ∧ c.withDefaults.Maintainer = c.Maintainer ∧
    c.withDefaults.Description = c.Description ∧ c.withDefaults.Depends = c.Depends ∧
    c.withDefaults.PreDepends = c.PreDepends ∧ c.withDefaults.Conflicts = c.Conflicts ∧
    c.withDefaults.Breaks = c.Breaks ∧ c.withDefaults.Replaces = c.Replaces ∧
    c.withDefaults.Section = c.Section ∧ c.withDefaults.Homepage = c.Homepage := by
  unfold Control.withDefaults; split <;> simp

theorem exec_block (p : Prop) [Decidable p] (k v r : String) :
    (if p then "" else k) ++ ((if p then "" else v) ++ ((if p then "" else "") ++ r)) =
      (if p then "" else k ++ v) ++ r := by
  split <;> simp [String.append_assoc]

theorem shift_newline (p : Prop) [Decidable p] (x r : String) :
    (if p then "" else "\n" ++ x) ++ ("\n" ++ r) =
      "\n" ++ ((if p then "" else x ++ "\n") ++ r) := by
  split <;> simp [String.append_assoc]

theorem emit_fst (s : String) (r : String × Option Errorf) : (emit s r).1 = s ++ r.1 := rfl

theorem emit_snd (s : String) (r : String × Option Errorf) : (emit s r).2 = r.2 := rfl

theorem ite_emit (p : Prop) [Decidable p] (s : String) (r : String × Option Errorf) :
    (if p then emit s r else r) = emit (if p then s else "") r := by
  split
  · rfl
  · simp [emit]

theorem WriteControl_eq (c : Control) (n : Int) :
    WriteControl .ignoresArguments c n = (controlText c n, none) := by
  unfold WriteControl
  rw [trimmed_eq]
  simp only [exec, Pipeline.eval, lenGt0, Value.print, Value.truth, Field.get,
    ListField.get, List.all_nil, List.all_cons, List.tail, id, if_true, Bool.and_true,
    list_length_int_ne, string_size_int_ne, ite_emit]
  apply Prod.ext
  · simp only [emit_fst]
    obtain ⟨h1, h2, h3, h4, h5, h6, h7, h8, h9, h10, h11, h12⟩ := withDefaults_fields c
    rw [withDefaults_Priority, h1, h2, h3, h4, h5, h6, h7, h8, h9, h10, h11, h12]
    simp only [controlText, listLine, optionalLine, fieldLine, Deb.join]
    generalize (if c.Priority = "" then "optional" else c.Priority) = prio
    simp only [String.empty_append, String.append_empty, decide_eq_true_eq, ne_eq, ite_not]
    simp only [exec_block]
    rw [show "Package: " = "Package" ++ ": " from by decide,
      show "\nVersion: " = "\n" ++ ("Version" ++ ": ") from by decide,
      show "\nArchitecture: " = "\n" ++ ("Architecture" ++ ": ") from by decide,
      show "\nMaintainer: " = "\n" ++ ("Maintainer" ++ ": ") from by decide,
      show "\nInstalled-Size: " = "\n" ++ ("Installed-Size" ++ ": ") from by decide,
      show "\nPre-Depends: " = "\n" ++ ("Pre-Depends" ++ ": ") from by decide,
      show "\nDepends: " = "\n" ++ ("Depends" ++ ": ") from by decide,
      show "\nConflicts: " = "\n" ++ ("Conflicts" ++ ": ") from by decide,
      show "\nBreaks: " = "\n" ++ ("Breaks" ++ ": ") from by decide,
      show "\nReplaces: " = "\n" ++ ("Replaces" ++ ": ") from by decide,
      show "\nSection: " = "\n" ++ ("Section" ++ ": ") from by decide,
      show "\nPriority: " = "\n" ++ ("Priority" ++ ": ") from by decide,
      show "\nHomepage: " = "\n" ++ ("Homepage" ++ ": ") from by decide,
      show "\nDescription: " = "\n" ++ ("Description" ++ ": ") from by decide]
    simp only [String.append_assoc, shift_newline]
  · simp only [emit_snd]

theorem WriteControl_rejects (c : Control) (n : Int) :
    WriteControl .rejectsArguments c n =
      (leadingText c n, some (argumentError "(len .PreDepends)")) := by
  obtain ⟨h1, h2, h3, h4, -⟩ := withDefaults_fields c
  unfold WriteControl
  rw [trimmed_eq]
  simp only [exec, Pipeline.eval, lenGt0, Value.print, Field.get, List.all_nil, if_true,
    emit, String.append_empty, h1, h2, h3, h4, ListField.name]
  simp only [leadingText, String.append_assoc]
  rfl

/-! ## Regular expressions: the language of the two patterns -/

theorem mem_oneOf (cs : List Char) (x : List Char) :
    x ∈ (oneOf cs).matches' ↔ ∃ c ∈ cs, x = [c] := by
  induction cs with
  | nil => simp [oneOf, Language.not_mem_zero]
  | cons a as ih =>
    have h : oneOf (a :: as) = RegularExpression.char a + oneOf as := rfl
    rw [h, RegularExpression.matches'_add, Language.mem_add, ih,
      RegularExpression.matches'_char]
    constructor
    · rintro (h | ⟨c, hc, rfl⟩)
      · exact ⟨a, List.mem_cons_self _ _, h⟩
      · exact ⟨c, List.mem_cons_of_mem _ hc, rfl⟩
    · rintro ⟨c, hc, rfl⟩
      rcases List.mem_cons.mp hc with rfl | hc
      · exact Or.inl rfl
      · exact Or.inr ⟨c, hc, rfl⟩

theorem mem_litChars (l x : List Char) :
    x ∈ (l.foldr (fun c r => RegularExpression.char c * r) 1).matches' ↔ x = l := by
  induction l generalizing x with
  | nil => simp [Language.mem_one]
  | cons a as ih =>
    simp only [List.foldr_cons, RegularExpression.matches'_mul, Language.mem_mul,
      RegularExpression.matches'_char]
    constructor
    · rintro ⟨u, hu, v, hv, rfl⟩
      rw [(ih v).mp hv, Set.mem_singleton_iff.mp hu]; rfl
    · rintro rfl
      exact ⟨[a], rfl, as, (ih as).mpr rfl, rfl⟩

theorem mem_lit (s : String) (x : List Char) : x ∈ (lit s).matches' ↔ x = s.toList :=
  mem_litChars s.toList x

theorem mem_star_oneOf (cs : List Char) (x : List Char) :
    x ∈ (RegularExpression.star (oneOf cs)).matches' ↔ ∀ c ∈ x, c ∈ cs := by
  rw [RegularExpression.matches'_star, Language.mem_kstar]
  constructor
  · rintro ⟨L, rfl, hL⟩ c hc
    obtain ⟨y, hy, hcy⟩ := List.mem_flatten.mp hc
    obtain ⟨d, hd, rfl⟩ := (mem_oneOf cs y).mp (hL y hy)
    rw [List.mem_singleton.mp hcy]; exact hd
  · intro h
    refine ⟨x.map (fun c => [c]), ?_, ?_⟩
    · clear h
      induction x with
      | nil => rfl
      | cons a as ih => simp [List.flatten, ← ih]
    · intro y hy
      obtain ⟨c, hc, rfl⟩ := List.mem_map.mp hy
      exact (mem_oneOf cs [c]).mpr ⟨c, h c hc, rfl⟩

theorem mem_many1_oneOf (cs : List Char) (x : List Char) :
    x ∈ (many1 (oneOf cs)).matches' ↔ x ≠ [] ∧ ∀ c ∈ x, c ∈ cs := by
  unfold many1
  rw [RegularExpression.matches'_mul, Language.mem_mul]
  constructor
  · rintro ⟨a, ha, b, hb, rfl⟩
    obtain ⟨c, hc, rfl⟩ := (mem_oneOf cs a).mp ha
    refine ⟨by simp, ?_⟩
    intro d hd
    rcases List.mem_append.mp hd with h | h
    · rw [List.mem_singleton.mp h]; exact hc
    · exact (mem_star_oneOf cs b).mp hb d h
  · rintro ⟨hne, h⟩
    cases x with
    | nil => exact absurd rfl hne
    | cons a as =>
      refine ⟨[a], (mem_oneOf cs [a]).mpr ⟨a, h a (List.mem_cons_self _ _), rfl⟩, as, ?_, rfl⟩
      exact (mem_star_oneOf cs as).mpr fun c hc => h c (List.mem_cons_of_mem _ hc)

theorem toNat_ofNat_small (n : Nat) (h : n < 0xd800) : (Char.ofNat n).toNat = n := by
  have hv : n.isValidChar := Or.inl h
  unfold Char.ofNat
  rw [dif_pos hv]
  simp [Char.ofNatAux, Char.toNat, UInt32.toNat]

theorem mem_charRange (lo hi c : Char) (hhi : hi.toNat < 0xd800) :
    c ∈ charRange lo hi ↔ lo.toNat ≤ c.toNat ∧ c.toNat ≤ hi.toNat := by
  unfold charRange
  rw [List.mem_map]
  constructor
  · rintro ⟨i, hi', rfl⟩
    have hi'' := List.mem_range.mp hi'
    rw [toNat_ofNat_small _ (by omega)]
    omega
  · rintro ⟨h1, h2⟩
    refine ⟨c.toNat - lo.toNat, List.mem_range.mpr (by omega), ?_⟩
    rw [show lo.toNat + (c.toNat - lo.toNat) = c.toNat by omega, Char.ofNat_toNat]

theorem char_le_iff (a b : Char) : a.val ≤ b.val ↔ a.toNat ≤ b.toNat := Iff.rfl

theorem char_eq_iff (a b : Char) : a = b ↔ a.toNat = b.toNat := by
  constructor
  · rintro rfl; rfl
  · intro h
    rw [← Char.ofNat_toNat a, ← Char.ofNat_toNat b, h]

theorem isAlpha_iff (c : Char) :
    c.isAlpha = true ↔ (65 ≤ c.toNat ∧ c.toNat ≤ 90) ∨ (97 ≤ c.toNat ∧ c.toNat ≤ 122) := by
  simp only [Char.isAlpha, Char.isUpper, Char.isLower, Bool.or_eq_true, Bool.and_eq_true,
    decide_eq_true_eq, ge_iff_le]
  exact Iff.rfl

theorem isDigit_iff (c : Char) : c.isDigit = true ↔ 48 ≤ c.toNat ∧ c.toNat ≤ 57 := by
  simp only [Char.isDigit, Bool.and_eq_true, decide_eq_true_eq, ge_iff_le]
  exact Iff.rfl

theorem char_literals :
    'a'.toNat = 97 ∧ 'z'.toNat = 122 ∧ 'A'.toNat = 65 ∧ 'Z'.toNat = 90 ∧
    '0'.toNat = 48 ∧ '9'.toNat = 57 :=
  ⟨rfl, rfl, rfl, rfl, rfl, rfl⟩

theorem mem_nameClass (c : Char) : c ∈ nameClass ↔ isNameChar c = true := by
  have ha := mem_charRange 'a' 'z' c (by decide)
  have hA := mem_charRange 'A' 'Z' c (by decide)
  have h0 := mem_charRange '0' '9' c (by decide)
  have e1 := char_eq_iff c '.'
  have e2 := char_eq_iff c '+'
  have e3 := char_eq_iff c '_'
  have e4 := char_eq_iff c '-'
  simp only [nameClass, List.mem_append, ha, hA, h0, isNameChar, Bool.or_eq_true,
    decide_eq_true_eq, isAlpha_iff, isDigit_iff,
    List.mem_cons, List.mem_singleton, List.not_mem_nil, or_false, e1, e2, e3, e4]
  obtain ⟨l1, l2, l3, l4, l5, l6⟩ := char_literals
  rw [l1, l2, l3, l4, l5, l6]
  generalize c.toNat = n
  generalize '.'.toNat = p1
  generalize '+'.toNat = p2
  generalize '_'.toNat = p3
  generalize '-'.toNat = p4
  omega

theorem mem_digitClass (c : Char) : c ∈ digitClass ↔ c.isDigit = true := by
  have h0 := mem_charRange '0' '9' c (by decide)
  obtain ⟨-, -, -, -, l5, l6⟩ := char_literals
  rw [digitClass, h0, isDigit_iff, l5, l6]

theorem mem_versionClass (c : Char) : c ∈ versionClass ↔ isVersionChar c = true := by
  have ha := mem_charRange 'a' 'z' c (by decide)
  have hA := mem_charRange 'A' 'Z' c (by decide)
  have h0 := mem_charRange '0' '9' c (by decide)
  have e1 := char_eq_iff c '.'
  have e4 := char_eq_iff c '-'
  simp only [versionClass, List.mem_append, ha, hA, h0, isVersionChar, Bool.or_eq_true,
    decide_eq_true_eq, isAlpha_iff, isDigit_iff,
    List.mem_cons, List.mem_singleton, List.not_mem_nil, or_false, e1, e4]
  obtain ⟨l1, l2, l3, l4, l5, l6⟩ := char_literals
  rw [l1, l2, l3, l4, l5, l6]
  generalize c.toNat = n
  generalize '.'.toNat = p1
  generalize '-'.toNat = p4
  omega

theorem mem_name_iff (x : List Char) : x ∈ (many1 (oneOf nameClass)).matches' ↔ IsName x := by
  rw [mem_many1_oneOf]
  unfold IsName
  simp only [mem_nameClass]

theorem mem_version_iff (x : List Char) : x ∈ versionExpr.matches' ↔ IsVersion x := by
  unfold versionExpr IsVersion
  rw [RegularExpression.matches'_mul, Language.mem_mul]
  constructor
  · rintro ⟨a, ha, b, hb, rfl⟩
    obtain ⟨d, hd, rfl⟩ := (mem_oneOf _ a).mp ha
    refine ⟨d, b, rfl, (mem_digitClass d).mp hd, ?_⟩
    intro c hc
    exact (mem_versionClass c).mp ((mem_star_oneOf _ b).mp hb c hc)
  · rintro ⟨d, rest, rfl, hd, hrest⟩
    refine ⟨[d], (mem_oneOf _ _).mpr ⟨d, (mem_digitClass d).mpr hd, rfl⟩, rest, ?_, rfl⟩
    exact (mem_star_oneOf _ rest).mpr fun c hc => (mem_versionClass c).mpr (hrest c hc)

theorem reDepends_match (s : String) :
    reDepends.MatchString s = true ↔ MatchesGrammar dependsOps s := by
  unfold Regexp.MatchString MatchesGrammar
  rw [RegularExpression.rmatch_iff_matches']
  simp only [reDepends, opt, RegularExpression.matches'_mul, RegularExpression.matches'_add,
    RegularExpression.matches'_epsilon, Language.mem_mul, Language.mem_add, Language.mem_one,
    mem_lit, mem_name_iff, mem_version_iff]
  constructor
  · rintro ⟨name, hname, b, (rfl | ⟨a, ⟨a1, ⟨a0, ⟨a2, rfl, b2, hb2, rfl⟩, b3, rfl, rfl⟩,
      v, hv, rfl⟩, b4, rfl, rfl⟩), hs⟩
    · exact ⟨name, hname, Or.inl (by simpa using hs.symm)⟩
    · refine ⟨name, hname, Or.inr ?_⟩
      have key : ∃ op ∈ dependsOps, op.toList = b2 := by
        rcases hb2 with (((rfl | rfl) | rfl) | rfl) | rfl
        · exact ⟨">", by decide, rfl⟩
        · exact ⟨">=", by decide, rfl⟩
        · exact ⟨"<", by decide, rfl⟩
        · exact ⟨"<=", by decide, rfl⟩
        · exact ⟨"=", by decide, rfl⟩
      obtain ⟨op, hop, rfl⟩ := key
      exact ⟨op, hop, v, hv, by rw [← hs]; simp only [List.append_assoc]⟩
  · rintro ⟨name, hname, (h | ⟨op, hop, v, hv, h⟩)⟩
    · exact ⟨name, hname, [], Or.inl rfl, by rw [h, List.append_nil]⟩
    · refine ⟨name, hname, _, Or.inr ⟨_, ⟨_, ⟨_, ⟨_, rfl, op.toList, ?_, rfl⟩, _, rfl, rfl⟩,
        v, hv, rfl⟩, _, rfl, rfl⟩, ?_⟩
      · simp only [dependsOps, List.mem_cons, List.mem_singleton, List.not_mem_nil,
          or_false] at hop
        rcases hop with rfl | rfl | rfl | rfl | rfl <;> simp
      · rw [h]; simp only [List.append_assoc]

theorem reReplacesEtc_match (s : String) :
    reReplacesEtc.MatchString s = true ↔ MatchesGrammar replacesOps s := by
  unfold Regexp.MatchString MatchesGrammar
  rw [RegularExpression.rmatch_iff_matches']
  simp only [reReplacesEtc, opt, RegularExpression.matches'_mul,
    RegularExpression.matches'_add, RegularExpression.matches'_epsilon, Language.mem_mul,
    Language.mem_add, Language.mem_one, mem_lit, mem_name_iff, mem_version_iff]
  have e : " (<< ".toList = " (".toList ++ "<<".toList ++ " ".toList := by decide
  constructor
  · rintro ⟨name, hname, b, (rfl | ⟨a, ⟨a1, rfl, v, hv, rfl⟩, b4, rfl, rfl⟩), hs⟩
    · exact ⟨name, hname, Or.inl (by simpa using hs.symm)⟩
    · refine ⟨name, hname, Or.inr ⟨"<<", by decide, v, hv, ?_⟩⟩
      rw [← hs, e]; simp only [List.append_assoc]
  · rintro ⟨name, hname, (h | ⟨op, hop, v, hv, h⟩)⟩
    · exact ⟨name, hname, [], Or.inl rfl, by rw [h, List.append_nil]⟩
    · refine ⟨name, hname, _, Or.inr ⟨_, ⟨_, rfl, v, hv, rfl⟩, _, rfl, rfl⟩, ?_⟩
      simp only [replacesOps, List.mem_singleton] at hop
      subst hop
      rw [h, e]; simp only [List.append_assoc]

/-! ## Validate -/

theorem hasString_iff (items : List String) (search : String) :
    hasString items search = true ↔ search ∈ items := by
  induction items with
  | nil => simp [hasString]
  | cons a as ih =>
    unfold hasString
    by_cases h : a = search
    · simp [h]
    · have h2 : ¬ search = a := fun e => h e.symm
      simp [h, h2, ih]

theorem checkEntries_eq_head (re : Regexp) (format : String) (deps : List String) :
    checkEntries re format deps = (entryErrors re format deps).head? := by
  induction deps with
  | nil => rfl
  | cons d ds ih =>
    unfold checkEntries
    by_cases h : re.MatchString d = true
    · simp [h, ih, entryErrors, List.filter_cons]
    · simp [h, entryErrors, List.filter_cons, entryError, Regexp.String]

theorem checkEntries_eq_none (re : Regexp) (format : String) (deps : List String) :
    checkEntries re format deps = none ↔ ∀ d ∈ deps, re.MatchString d = true := by
  induction deps with
  | nil => simp [checkEntries]
  | cons d ds ih =>
    unfold checkEntries
    by_cases h : re.MatchString d = true
    · simp [h, ih]
    · simp [h]

theorem missingFields_eq (c : Control) : missingFields c = emptyRequired c := by
  unfold missingFields emptyRequired
  by_cases h1 : c.Package = "" <;> by_cases h2 : c.Version = "" <;>
    by_cases h3 : c.Architecture = "" <;> by_cases h4 : c.Maintainer = "" <;>
    by_cases h5 : c.Description = "" <;>
    simp [h1, h2, h3, h4, h5, List.filter_cons]

theorem emptyRequired_withDefaults (c : Control) :
    emptyRequired c.withDefaults = emptyRequired c := by
  obtain ⟨h1, h2, h3, h4, h5, -⟩ := withDefaults_fields c
  unfold emptyRequired
  rw [h1, h2, h3, h4, h5]

theorem emptyRequired_eq_nil (c : Control) :
    emptyRequired c = [] ↔ c.Package ≠ "" ∧ c.Version ≠ "" ∧ c.Architecture ≠ "" ∧
      c.Maintainer ≠ "" ∧ c.Description ≠ "" := by
  unfold emptyRequired
  by_cases h1 : c.Package = "" <;> by_cases h2 : c.Version = "" <;>
    by_cases h3 : c.Architecture = "" <;> by_cases h4 : c.Maintainer = "" <;>
    by_cases h5 : c.Description = "" <;>
    simp [h1, h2, h3, h4, h5, List.filter_cons]

theorem Validate_eq_head (c : Control) : Validate c = (violationErrors c).head? := by
  obtain ⟨-, -, h3, -, -, h6, h7, h8, h9, h10, -, -⟩ := withDefaults_fields c
  unfold Validate violationErrors
  simp only [missingFields_eq, emptyRequired_withDefaults, h3, h6, h7, h8, h9, h10,
    checkEntries_eq_head, List.head?_append, ← Option.or_eq_orElse]
  by_cases hm : emptyRequired c = []
  · by_cases ha : c.Architecture ∈ supportedArchitectures
    · have ha2 := (hasString_iff _ _).mpr ha
      simp [hm, ha, ha2, Option.or_assoc]
    · have ha2 : hasString supportedArchitectures c.Architecture = false := by
        rw [← Bool.not_eq_true, hasString_iff]; exact ha
      simp [hm, ha, ha2]
  · have hl : (emptyRequired c).length > 0 := List.length_pos.mpr hm
    simp [hm, hl]

/-! ## Collectors -/

theorem walkEntries_clean {σ : Type} (fn : σ → WalkEntry → σ × Option Error)
    (step : σ → WalkEntry → σ) (l : List WalkEntry)
    (h : ∀ s, ∀ e ∈ l, fn s e = (step s e, none)) (s : σ) :
    walkEntries fn s l = (l.foldl step s, none) := by
  induction l generalizing s with
  | nil => rfl
  | cons e rest ih =>
    have he := h s e (List.mem_cons_self _ _)
    simp only [walkEntries, he, List.foldl_cons]
    exact ih (fun s e he => h s e (List.mem_cons_of_mem _ he)) _

theorem wrap64_of_range (n : Int) (h0 : 0 ≤ n) (h1 : n < 2 ^ 63) : wrap64 n = n := by
  unfold wrap64
  norm_num at h1 ⊢
  omega

theorem sum_sizes_nonneg (l : List WalkEntry)
    (h : ∀ e ∈ l.filter (fun e => !e.info.IsDir), 0 ≤ e.info.Size) :
    0 ≤ ((l.filter fun e => !e.info.IsDir).map fun e => e.info.Size).sum := by
  apply List.sum_nonneg
  intro x hx
  obtain ⟨e, he, rfl⟩ := List.mem_map.mp hx
  exact h e he

theorem foldl_size (l : List WalkEntry) (acc : Int) (hacc : 0 ≤ acc)
    (hsize : ∀ e ∈ l.filter (fun e => !e.info.IsDir), 0 ≤ e.info.Size)
    (hfit : acc + ((l.filter fun e => !e.info.IsDir).map fun e => e.info.Size).sum < 2 ^ 63) :
    l.foldl (fun s e => if e.info.IsDir then s else wrap64 (s + e.info.Size)) acc =
      acc + ((l.filter fun e => !e.info.IsDir).map fun e => e.info.Size).sum := by
  induction l generalizing acc with
  | nil => simp
  | cons e rest ih =>
    by_cases hd : e.info.IsDir = true
    · simp only [List.foldl_cons, hd, if_true]
      have hf : (e :: rest).filter (fun e => !e.info.IsDir) =
          rest.filter (fun e => !e.info.IsDir) := by simp [List.filter_cons, hd]
      rw [hf] at hsize hfit ⊢
      exact ih acc hacc hsize hfit
    · have hd2 : e.info.IsDir = false := by simpa using hd
      have hf : (e :: rest).filter (fun e => !e.info.IsDir) =
          e :: rest.filter (fun e => !e.info.IsDir) := by simp [List.filter_cons, hd2]
      rw [hf] at hsize hfit ⊢
      have he : 0 ≤ e.info.Size := hsize e (List.mem_cons_self _ _)
      have hrest : ∀ x ∈ rest.filter (fun e => !e.info.IsDir), 0 ≤ x.info.Size :=
        fun x hx => hsize x (List.mem_cons_of_mem _ hx)
      have hsum := sum_sizes_nonneg rest hrest
      simp only [List.map_cons, List.sum_cons] at hfit ⊢
      have hw : wrap64 (acc + e.info.Size) = acc + e.info.Size :=
        wrap64_of_range _ (by omega) (by omega)
      simp only [List.foldl_cons, hd2, Bool.false_eq_true, if_false, hw]
      rw [ih (acc + e.info.Size) (by omega) hrest (by omega)]
      omega

theorem walk_size (fs : NameSpace) (hwalk : fs.WalksCleanly)
    (hsize : ∀ e ∈ fs.fileEntries, 0 ≤ e.info.Size) (hfit : fs.totalBytes < 2 ^ 63) :
    (Walk fs totalSizeFn 0).1 = fs.totalBytes := by
  unfold Walk
  rw [walkEntries_clean totalSizeFn
    (fun s e => if e.info.IsDir then s else wrap64 (s + e.info.Size))]
  · have := foldl_size fs.entries 0 (le_refl 0) hsize (by simpa using hfit)
    simpa [NameSpace.totalBytes, NameSpace.fileEntries] using this
  · intro s e he
    unfold totalSizeFn
    rw [hwalk e he]
    by_cases hd : e.info.IsDir = true <;> simp [hd]

theorem vfsTotalFileSize_spec (fs : NameSpace) (hwalk : fs.WalksCleanly)
    (hsize : ∀ e ∈ fs.fileEntries, 0 ≤ e.info.Size) (hfit : fs.totalBytes < 2 ^ 63) :
    ∃ k, vfsTotalFileSize fs = (k, none) ∧ fs.totalBytes ≤ 1024 * k ∧
      ∀ j, fs.totalBytes ≤ 1024 * j → k ≤ j := by
  have hs := walk_size fs hwalk hsize hfit
  have h0 : 0 ≤ fs.totalBytes := sum_sizes_nonneg fs.entries hsize
  unfold vfsTotalFileSize
  simp only [hs]
  generalize fs.totalBytes = s at h0 hfit
  have hm : Int.tmod s 1024 = s % 1024 := Int.tmod_eq_emod h0 (by norm_num)
  have hd : Int.tdiv s 1024 = s / 1024 := Int.tdiv_eq_ediv h0 (by norm_num)
  rw [hm, hd]
  norm_num at hfit
  by_cases hr : s % 1024 > 0
  · have hw : wrap64 (s / 1024 + 1) = s / 1024 + 1 :=
      wrap64_of_range _ (by omega) (by norm_num; omega)
    refine ⟨s / 1024 + 1, by simp [hr, hw], by omega, fun j hj => by omega⟩
  · refine ⟨s / 1024, by simp [hr], by omega, fun j hj => by omega⟩

theorem md5sumsFn_clean (hash : Hash) (fs : NameSpace) (hwalk : fs.WalksCleanly)
    (hread : fs.ReadsCleanly) (buf : String) (e : WalkEntry) (he : e ∈ fs.entries) :
    md5sumsFn hash fs buf e =
      (if e.info.IsDir then buf else buf ++ checksumLine hash fs e, none) := by
  unfold md5sumsFn
  rw [hwalk e he]
  by_cases hd : e.info.IsDir = true
  · simp [hd]
  · have hd2 : e.info.IsDir = false := by simpa using hd
    have hmem : e ∈ fs.fileEntries := by
      simp [NameSpace.fileEntries, he, hd2]
    obtain ⟨data, hdata⟩ := hread e hmem
    simp [hd2, hdata, File.copyAll, checksumLine, NameSpace.contentOf]

theorem foldl_lines (line : WalkEntry → String) (l : List WalkEntry) (buf : String) :
    l.foldl (fun b e => if e.info.IsDir then b else b ++ line e) buf =
      buf ++ concatLines ((l.filter fun e => !e.info.IsDir).map line) := by
  induction l generalizing buf with
  | nil => simp [concatLines]
  | cons e rest ih =>
    by_cases hd : e.info.IsDir = true
    · simp [List.filter_cons, hd, ih]
    · have hd2 : e.info.IsDir = false := by simpa using hd
      simp [List.filter_cons, hd2, ih, concatLines, String.append_assoc]

theorem md5sums_spec (hash : Hash) (fs : NameSpace) (hwalk : fs.WalksCleanly)
    (hread : fs.ReadsCleanly) :
    md5sums hash fs = (concatLines (fs.fileEntries.map (checksumLine hash fs)), none) := by
  unfold md5sums Walk
  rw [walkEntries_clean (md5sumsFn hash fs)
    (fun b e => if e.info.IsDir then b else b ++ checksumLine hash fs e) fs.entries
    (fun s e he => md5sumsFn_clean hash fs hwalk hread s e he)]
  simp [foldl_lines, NameSpace.fileEntries]

theorem hexDigit_mem : ∀ n, n < 16 → hexDigit n ∈ hexDigits := by
  decide

theorem EncodeToString_length (src : Bytes) : (EncodeToString src).length = 2 * src.length := by
  unfold EncodeToString
  simp only [String.length]
  induction src with
  | nil => rfl
  | cons b bs ih => simp [List.flatMap_cons, ih]; omega

theorem EncodeToString_chars (src : Bytes) :
    ∀ c ∈ (EncodeToString src).toList, c ∈ hexDigits := by
  unfold EncodeToString
  intro c hc
  simp only [String.toList, List.mem_flatMap] at hc
  obtain ⟨b, -, hb⟩ := hc
  have hlt : b.toNat < 256 := b.val.isLt
  simp only [List.mem_cons, List.mem_singleton, List.not_mem_nil, or_false] at hb
  rcases hb with rfl | rfl
  · exact hexDigit_mem _ (by omega)
  · exact hexDigit_mem _ (by omega)

/-! ## The outer container -/

theorem appendBody_last (ms : List ArMember) (m : ArMember) (data : Bytes) :
    appendBody (ms ++ [m]) data = ms ++ [{ m with body := m.body ++ data }] := by
  simp [appendBody]

theorem Copy_ok (env : Env) (ms : List ArMember) (h : ArHeader) (r : File)
    (d2 : debWriter) (n : Int)
    (hc : debWriter.Copy env { members := ms ++ [{ header := h, body := [] }], nb := h.Size } r
      = (d2, n, none)) :
    d2.members = ms ++ [{ header := h, body := r.content }] ∧ n = r.content.length ∧
      r.content.length ≤ h.Size.toNat := by
  unfold debWriter.Copy at hc
  split at hc
  · simp at hc
  · simp only at hc
    split at hc
    · simp [ErrWriteTooLong, Error.ofMessage] at hc
    · rename_i hle
      have hle2 : r.content.length ≤ h.Size.toNat := Nat.le_of_not_lt hle
      have htake : List.take h.Size.toNat r.content = r.content := List.take_of_length_le hle2
      simp only [Prod.mk.injEq] at hc
      obtain ⟨hd, hn, -⟩ := hc
      subst hd hn
      simp [htake, appendBody_last, hle2]

theorem writeFile_ok (env : Env) (d d2 : debWriter) (name : String) (r : File) (size : Int)
    (hw : d.writeFile env name r size = (d2, none)) :
    d2.members = d.members ++
      [{ header := { ModTime := env.now, Uid := 0, Gid := 0, Mode := 0o600, Size := size,
                     Name := name },
         body := r.content }] ∧ size = r.content.length := by
  unfold debWriter.writeFile debWriter.WriteHeader at hw
  simp only at hw
  split at hw
  · rename_i d1 err heq
    split at heq <;> simp at heq hw
  · rename_i d1 heq
    split at heq
    · simp at heq
    · simp only [Prod.mk.injEq, and_true] at heq
      subst heq
      split at hw
      · simp at hw
      · rename_i d3 n hcopy
        obtain ⟨hm, hn, -⟩ := Copy_ok env d.members _ r d3 n hcopy
        split at hw
        · simp at hw
        · rename_i hne
          simp only [Prod.mk.injEq, and_true] at hw
          subst hw
          have : n = size := by simpa using hne
          exact ⟨hm, by omega⟩

theorem writeDebianBinary_ok (env : Env) (d2 : debWriter)
    (hw : debWriter.writeDebianBinary env { members := [], nb := 0 } = (d2, none)) :
    d2.members =
      [{ header := { ModTime := env.now, Uid := 0, Gid := 0, Mode := 0o600, Size := 4,
                     Name := "debian-binary" },
         body := stringBytes "2.0\n" }] := by
  unfold debWriter.writeDebianBinary debWriter.WriteHeader at hw
  simp only at hw
  split at hw
  · rename_i d1 err heq
    split at heq <;> simp at heq hw
  · rename_i d1 heq
    split at heq
    · simp at heq
    · simp only [Prod.mk.injEq, and_true] at heq
      subst heq
      split at hw
      · simp at hw
      · rename_i d3 n hcopy
        have hcopy2 := Copy_ok env [] _ _ d3 n hcopy
        simp only [Prod.mk.injEq, and_true] at hw
        subst hw
        simpa using hcopy2.1

theorem addArchive_ok (env : Env) (d d2 : debWriter) (name path : String) (written : Bytes)
    (hw : addArchive env d name path written = (d2, none)) :
    ∃ body : Bytes, d2.members = d.members ++
      [{ header := { ModTime := env.now, Uid := 0, Gid := 0, Mode := 0o600,
                     Size := body.length, Name := name },
         body := body }] := by
  unfold addArchive at hw
  split at hw
  · simp at hw
  · split at hw
    · simp at hw
    · rename_i f _
      obtain ⟨hm, hs⟩ := writeFile_ok env d d2 name f _ hw
      exact ⟨f.content, by rw [hm, hs]⟩

theorem createDeb_ok (env : Env) (target : String) (fspec : Files) (c : Control)
    (out : debWriter) (h : createDeb env target fspec c = (none, out)) :
    ∃ b2 b3 : Bytes, out.members =
      [ { header := { ModTime := env.now, Uid := 0, Gid := 0, Mode := 0o600, Size := 4,
                      Name := "debian-binary" },
          body := stringBytes "2.0\n" },
        { header := { ModTime := env.now, Uid := 0, Gid := 0, Mode := 0o600,
                      Size := b2.length, Name := "control.tar.gz" },
          body := b2 },
        { header := { ModTime := env.now, Uid := 0, Gid := 0, Mode := 0o600,
                      Size := b3.length, Name := "data.tar.gz" },
          body := b3 } ] := by
  unfold createDeb at h
  simp only at h
  split at h
  · simp at h
  · split at h
    · simp at h
    · split at h
      · simp at h
      · split at h
        · simp at h
        · rename_i a1 h1
          have m1 := writeDebianBinary_ok env a1 h1
          split at h
          · simp at h
          · split at h
            · simp at h
            · rename_i a2 h2
              obtain ⟨b2, m2⟩ := addArchive_ok env a1 a2 _ _ _ h2
              split at h
              · simp at h
              · split at h
                · simp at h
                · rename_i a3 h3
                  obtain ⟨b3, m3⟩ := addArchive_ok env a2 a3 _ _ _ h3
                  simp only [Prod.mk.injEq] at h
                  obtain ⟨-, rfl⟩ := h
                  exact ⟨b2, b3, by rw [m3, m2, m1]; rfl⟩

/-! ## Lines of the control text -/

theorem digitChar_ne_newline : ∀ m, m < 10 → Nat.digitChar m ≠ '\n' := by
  decide

theorem toDigitsCore_no_newline (fuel n : Nat) (ds : List Char)
    (h : ∀ c ∈ ds, c ≠ '\n') : ∀ c ∈ Nat.toDigitsCore 10 fuel n ds, c ≠ '\n' := by
  induction fuel generalizing n ds with
  | zero => simpa [Nat.toDigitsCore] using h
  | succ fuel ih =>
    have hd : ∀ c ∈ Nat.digitChar (n % 10) :: ds, c ≠ '\n' := by
      intro c hc
      rcases List.mem_cons.mp hc with rfl | hc
      · exact digitChar_ne_newline _ (Nat.mod_lt _ (by decide))
      · exact h c hc
    unfold Nat.toDigitsCore
    simp only
    split
    · exact hd
    · exact ih _ _ hd

theorem nat_repr_no_newline (n : Nat) : ∀ c ∈ (Nat.repr n).toList, c ≠ '\n' := by
  unfold Nat.repr Nat.toDigits
  simpa [List.asString] using toDigitsCore_no_newline (n + 1) n [] (by simp)

theorem int_toString_no_newline (n : Int) : ∀ c ∈ (toString n).toList, c ≠ '\n' := by
  cases n with
  | ofNat m => exact nat_repr_no_newline m
  | negSucc m =>
    intro c hc
    have hc2 : c ∈ "-".toList ++ (Nat.repr (m + 1)).toList := by
      simpa [toString, instToStringInt, instToStringNat] using hc
    rcases List.mem_append.mp hc2 with h | h
    · simp at h; subst h; decide
    · exact nat_repr_no_newline _ c h

theorem linesOf_ne_nil (l : List Char) : linesOf l ≠ [] := by
  cases l with
  | nil => simp [linesOf]
  | cons c cs =>
    unfold linesOf
    split
    · simp
    · split <;> simp

theorem linesOf_line (a rest : List Char) (h : ∀ c ∈ a, c ≠ '\n') :
    linesOf (a ++ '\n' :: rest) = a :: linesOf rest := by
  induction a with
  | nil =>
    have hne := linesOf_ne_nil rest
    simp only [List.nil_append]
    rw [linesOf]
    split
    · rename_i heq; exact absurd heq hne
    · rename_i l ls heq; simp [heq]
  | cons c cs ih =>
    have hc : c ≠ '\n' := h c (List.mem_cons_self _ _)
    have ih2 := ih fun x hx => h x (List.mem_cons_of_mem _ hx)
    simp only [List.cons_append]
    rw [linesOf, ih2]
    simp [hc]

theorem literal_line (k v : List Char) (hk : ∀ c ∈ k, c ≠ '\n') (hv : ∀ c ∈ v, c ≠ '\n') :
    ∀ c ∈ k ++ v, c ≠ '\n' := by
  intro c hc
  rcases List.mem_append.mp hc with h | h
  · exact hk c h
  · exact hv c h

theorem lines_required_only (p v a m n d : List Char)
    (hp : ∀ c ∈ p, c ≠ '\n') (hv : ∀ c ∈ v, c ≠ '\n') (ha : ∀ c ∈ a, c ≠ '\n')
    (hm : ∀ c ∈ m, c ≠ '\n') (hn : ∀ c ∈ n, c ≠ '\n') (hd : ∀ c ∈ d, c ≠ '\n') :
    linesOf (("Package: ".toList ++ p) ++ '\n' :: (("Version: ".toList ++ v) ++ '\n' ::
      (("Architecture: ".toList ++ a) ++ '\n' :: (("Maintainer: ".toList ++ m) ++ '\n' ::
      (("Installed-Size: ".toList ++ n) ++ '\n' :: ("Priority: optional".toList ++ '\n' ::
      (("Description: ".toList ++ d) ++ '\n' :: []))))))) =
    [ "Package: ".toList ++ p, "Version: ".toList ++ v, "Architecture: ".toList ++ a,
      "Maintainer: ".toList ++ m, "Installed-Size: ".toList ++ n,
      "Priority: optional".toList, "Description: ".toList ++ d, [] ] := by
  rw [linesOf_line _ _ (literal_line _ _ (by decide) hp),
    linesOf_line _ _ (literal_line _ _ (by decide) hv),
    linesOf_line _ _ (literal_line _ _ (by decide) ha),
    linesOf_line _ _ (literal_line _ _ (by decide) hm),
    linesOf_line _ _ (literal_line _ _ (by decide) hn),
    linesOf_line _ _ (by decide),
    linesOf_line _ _ (literal_line _ _ (by decide) hd)]
  rfl

theorem required_only_keys (c : Control) (n : Int)
    (hp : SingleLine c.Package) (hv : SingleLine c.Version) (ha : SingleLine c.Architecture)
    (hm : SingleLine c.Maintainer) (hd : SingleLine c.Description) :
    ∀ key ∈ optionalKeys,
      hasKey (fieldLine "Package" c.Package ++ fieldLine "Version" c.Version ++
        fieldLine "Architecture" c.Architecture ++ fieldLine "Maintainer" c.Maintainer ++
        fieldLine "Installed-Size" (toString n) ++ fieldLine "Priority" "optional" ++
        fieldLine "Description" c.Description) key = false := by
  have hl := lines_required_only c.Package.toList c.Version.toList c.Architecture.toList
    c.Maintainer.toList (toString n).toList c.Description.toList hp hv ha hm
    (int_toString_no_newline n) hd
  have ht : (fieldLine "Package" c.Package ++ fieldLine "Version" c.Version ++
      fieldLine "Architecture" c.Architecture ++ fieldLine "Maintainer" c.Maintainer ++
      fieldLine "Installed-Size" (toString n) ++ fieldLine "Priority" "optional" ++
      fieldLine "Description" c.Description).toList =
      ("Package: ".toList ++ c.Package.toList) ++ '\n' ::
      (("Version: ".toList ++ c.Version.toList) ++ '\n' ::
      (("Architecture: ".toList ++ c.Architecture.toList) ++ '\n' ::
      (("Maintainer: ".toList ++ c.Maintainer.toList) ++ '\n' ::
      (("Installed-Size: ".toList ++ (toString n).toList) ++ '\n' ::
      ("Priority: optional".toList ++ '\n' ::
      (("Description: ".toList ++ c.Description.toList) ++ '\n' :: [])))))) := by
    simp [fieldLine, String.toList]
  intro key hkey
  unfold hasKey
  rw [ht, hl]
  simp only [optionalKeys, List.mem_cons, List.mem_singleton, List.not_mem_nil,
    or_false] at hkey
  rcases hkey with rfl | rfl | rfl | rfl | rfl | rfl | rfl <;>
    simp [List.isPrefixOf, String.toList]

theorem Validate_none_Architecture (c : Control) (h : Validate c = none) :
    c.Architecture ∈ supportedArchitectures := by
  rw [Validate_eq_head, List.head?_eq_none_iff] at h
  unfold violationErrors at h
  simp only [List.append_eq_nil, and_assoc] at h
  by_contra hne
  have h2 := h.2.1
  rw [if_neg hne] at h2
  exact List.cons_ne_nil _ _ h2

theorem supportedArchitectures_singleLine (a : String) (h : a ∈ supportedArchitectures) :
    SingleLine a := by
  simp only [supportedArchitectures, List.mem_cons, List.mem_singleton, List.not_mem_nil,
    or_false] at h
  rcases h with rfl | rfl | rfl | rfl | rfl | rfl | rfl | rfl | rfl | rfl | rfl <;>
    (unfold SingleLine; decide)

/-! ## Claims on rendering and validation -/

/-- C1 on the code: every `if` of the template is written `(len .X) gt 0`, arguments
given to a parenthesised pipeline. With `text/template` since Go 1.14, WriteControl
returns an error for every control and size, having written the five leading fields up to
the installed size and nothing after it; for the control of the test with size 12345 the
text stops at "Installed-Size: 12345". With `text/template` up to Go 1.13 it writes exactly
the specified text and returns no error. -/
theorem C1_WriteControl_fails_at_first_if (c : Control) (n : Int) :
    WriteControl .rejectsArguments c n =
      (leadingText c n, some (argumentError "(len .PreDepends)")) ∧
    WriteControl .rejectsArguments basicWithSection 12345 =
      ("Package: mkdeb\nVersion: 0.1.0\nArchitecture: amd64\n" ++
        "Maintainer: Chris Bednarski <banzaimonkey@gmail.com>\nInstalled-Size: 12345",
       some (argumentError "(len .PreDepends)")) ∧
    WriteControl .ignoresArguments c n = (controlText c n, none) :=
  ⟨WriteControl_rejects c n, by rw [WriteControl_rejects]; decide, WriteControl_eq c n⟩

/-- C2: Validate returns no error exactly when the five required fields are non-empty,
the architecture is a supported one, every Depends and PreDepends entry matches
`name[ (OP version)]` with OP among =, >=, <=, >, <, and every Replaces, Conflicts and
Breaks entry matches `name[ (<< version)]`. -/
theorem C2_Validate_accepts_iff_valid (c : Control) :
    Validate c = none ↔ ValidControl c := by
  rw [Validate_eq_head, List.head?_eq_none_iff]
  unfold violationErrors ValidControl
  simp only [List.append_eq_nil, entryErrors, List.map_eq_nil_iff, List.filter_eq_nil_iff,
    Bool.not_eq_true, Bool.not_eq_false, reDepends_match, reReplacesEtc_match, and_assoc,
    ite_eq_left_iff, reduceCtorEq, imp_false, not_not, Bool.not_eq_eq_eq_not,
    Bool.not_true, Bool.not_false, Bool.not_eq_true', Bool.not_eq_false']
  rw [emptyRequired_eq_nil]
  simp only [and_assoc]
  rfl

/-- C3: when at least one required field is empty, Validate returns one error whose
message is "These required fields are missing: " followed by the names of exactly the
empty fields, joined by ", ", in the order package, version, architecture, maintainer,
description. -/
theorem C3_Validate_lists_missing_fields (c : Control)
    (h : c.Package = "" ∨ c.Version = "" ∨ c.Architecture = "" ∨ c.Maintainer = "" ∨
      c.Description = "") :
    ∃ e, Validate c = some e ∧
      e.Error = some ("These required fields are missing: " ++
        String.intercalate ", " (emptyRequired c)) := by
  have hne : emptyRequired c ≠ [] := by
    intro h0
    have := (emptyRequired_eq_nil c).mp h0
    tauto
  refine ⟨{ format := "These required fields are missing: %s",
            args := [String.intercalate ", " (emptyRequired c)] }, ?_, ?_⟩
  · rw [Validate_eq_head]
    unfold violationErrors
    simp [hne]
  · simp [Errorf.Error, Sprintf, sprintfChars]
    rfl

/-- C3 at the empty control: all five field names are listed. -/
theorem C3_Validate_lists_missing_fields_witness :
    ∃ e, Validate Control.zero = some e ∧
      e.Error = some ("These required fields are missing: " ++
        String.intercalate ", "
          ["package", "version", "architecture", "maintainer", "description"]) :=
  C3_Validate_lists_missing_fields Control.zero (Or.inl rfl)

/-- C7, as stated, fails on either template engine. Where the template executes (up to
Go 1.13), a valid control with every optional field empty still gets a `Priority` line,
because the default "optional" is applied before rendering. Where it does not (since Go
1.14), the text stops after the installed size and has no `Description` line. -/
theorem C7_Priority_line_is_written :
    Validate requiredOnly = none ∧
    (requiredOnly.PreDepends = [] ∧ requiredOnly.Depends = [] ∧
      requiredOnly.Conflicts = [] ∧ requiredOnly.Breaks = [] ∧
      requiredOnly.Replaces = [] ∧ requiredOnly.Section = "" ∧
      requiredOnly.Priority = "" ∧ requiredOnly.Homepage = "") ∧
    hasKey (WriteControl .ignoresArguments requiredOnly 0).1 "Priority" = true ∧
    WriteControl .ignoresArguments requiredOnly 0 =
      ("Package: mkdeb\nVersion: 0.1.0\nArchitecture: amd64\n" ++
       "Maintainer: Chris Bednarski <banzaimonkey@gmail.com>\nInstalled-Size: 0\n" ++
       "Priority: optional\nDescription: A CLI tool for building debian packages\n",
       none) ∧
    hasKey (WriteControl .rejectsArguments requiredOnly 0).1 "Description" = false ∧
    (WriteControl .rejectsArguments requiredOnly 0).2 =
      some (argumentError "(len .PreDepends)") := by
  refine ⟨by decide, by decide, ?_, ?_, ?_, ?_⟩
  · rw [WriteControl_eq]; decide
  · rw [WriteControl_eq]; decide
  · rw [WriteControl_rejects]; decide
  · rw [WriteControl_rejects]

/-- C7, amended: for a control that passes Validate and whose optional fields are all
empty, whenever WriteControl returns no error the text written is exactly the lines
Package, Version, Architecture, Maintainer, Installed-Size, `Priority: optional` and
Description, in that order, with the Description line last; and when none of Package,
Version, Maintainer and Description holds a newline, no line of that text has the key
Pre-Depends, Depends, Conflicts, Breaks, Replaces, Section or Homepage. -/
theorem C7_WriteControl_required_only (engine : TemplateEngine) (c : Control) (n : Int)
    (hvalid : Validate c = none)
    (hpre : c.PreDepends = []) (hdep : c.Depends = []) (hcon : c.Conflicts = [])
    (hbrk : c.Breaks = []) (hrep : c.Replaces = []) (hsec : c.Section = "")
    (hprio : c.Priority = "") (hhome : c.Homepage = "")
    (hok : (WriteControl engine c n).2 = none) :
    (WriteControl engine c n).1 =
      fieldLine "Package" c.Package ++ fieldLine "Version" c.Version ++
      fieldLine "Architecture" c.Architecture ++ fieldLine "Maintainer" c.Maintainer ++
      fieldLine "Installed-Size" (toString n) ++ fieldLine "Priority" "optional" ++
      fieldLine "Description" c.Description ∧
    (SingleLine c.Package → SingleLine c.Version → SingleLine c.Maintainer →
      SingleLine c.Description →
      ∀ key ∈ optionalKeys, hasKey (WriteControl engine c n).1 key = false) := by
  have htext : (WriteControl engine c n).1 =
      fieldLine "Package" c.Package ++ fieldLine "Version" c.Version ++
      fieldLine "Architecture" c.Architecture ++ fieldLine "Maintainer" c.Maintainer ++
      fieldLine "Installed-Size" (toString n) ++ fieldLine "Priority" "optional" ++
      fieldLine "Description" c.Description := by
    cases engine with
    | ignoresArguments =>
      rw [WriteControl_eq]
      unfold controlText listLine optionalLine
      simp [hpre, hdep, hcon, hbrk, hrep, hsec, hprio, hhome]
    | rejectsArguments =>
      rw [WriteControl_rejects] at hok
      simp at hok
  refine ⟨htext, ?_⟩
  intro hp hv hm hd
  rw [htext]
  exact required_only_keys c n hp hv
    (supportedArchitectures_singleLine _ (Validate_none_Architecture c hvalid)) hm hd

/-- C7, amended, at a control of the test suite with its homepage removed, where the
template executes. -/
theorem C7_WriteControl_required_only_witness :
    Validate requiredOnly = none ∧
    (WriteControl .ignoresArguments requiredOnly 12345).2 = none ∧
    ((WriteControl .ignoresArguments requiredOnly 12345).1 =
      fieldLine "Package" "mkdeb" ++ fieldLine "Version" "0.1.0" ++
      fieldLine "Architecture" "amd64" ++
      fieldLine "Maintainer" "Chris Bednarski <banzaimonkey@gmail.com>" ++
      fieldLine "Installed-Size" (toString (12345 : Int)) ++
      fieldLine "Priority" "optional" ++
      fieldLine "Description" "A CLI tool for building debian packages" ∧
     (SingleLine requiredOnly.Package → SingleLine requiredOnly.Version →
      SingleLine requiredOnly.Maintainer → SingleLine requiredOnly.Description →
      ∀ key ∈ optionalKeys,
        hasKey (WriteControl .ignoresArguments requiredOnly 12345).1 key = false)) ∧
    (SingleLine requiredOnly.Package ∧ SingleLine requiredOnly.Version ∧
      SingleLine requiredOnly.Maintainer ∧ SingleLine requiredOnly.Description) :=
  ⟨by decide, by rw [WriteControl_eq],
   C7_WriteControl_required_only .ignoresArguments requiredOnly 12345 (by decide)
     rfl rfl rfl rfl rfl rfl rfl rfl (by rw [WriteControl_eq]),
   by unfold SingleLine; decide⟩

/-- C8, as stated, fails: with an unsupported architecture and a malformed Depends entry,
and with a malformed Depends entry and a malformed Replaces entry, Validate returns the
error of the first violation only; the second one is not among what it reports. -/
theorem C8_Validate_stops_at_first_violation :
    (violationErrors badArchAndDepends).length = 2 ∧ ¬ ReportsAll badArchAndDepends ∧
    (violationErrors badDependsAndReplaces).length = 2 ∧
    ¬ ReportsAll badDependsAndReplaces := by
  refine ⟨by decide, ?_, by decide, ?_⟩
  · intro h
    obtain ⟨e, he, hmem⟩ := h
      { format :=
          "Dependency %q is invalid; expected something like 'libc (= 5.1.2)' matching %q"
        args := ["libc (5.1.2)", reDepends.source] } (by decide)
    have hv : Validate badArchAndDepends = some
        { format := "Arch %q is not supported; expected one of %s"
          args := ["sparc", String.intercalate ", " supportedArchitectures] } := by decide
    rw [hv] at he
    cases he
    revert hmem
    decide
  · intro h
    obtain ⟨e, he, hmem⟩ := h
      { format :=
          "Replacement %q is invalid; expected something like 'libc (<< 5.1.2)' matching %q"
        args := ["debpkg (>= 1.0)", reReplacesEtc.source] } (by decide)
    have hv : Validate badDependsAndReplaces = some
        { format :=
            "Dependency %q is invalid; expected something like 'libc (= 5.1.2)' matching %q"
          args := ["libc (5.1.2)", reDepends.source] } := by decide
    rw [hv] at he
    cases he
    revert hmem
    decide

/-- C8, amended: the error returned by Validate is the first of the control's violations
in the order of the checks: the empty required fields (all of them, in one error), the
unsupported architecture, then the malformed entries of Depends, PreDepends, Replaces,
Conflicts and Breaks in list order; there is no error exactly when there is no violation,
and violations after the first are not reported. -/
theorem C8_Validate_reports_first_violation (c : Control) :
    Validate c = (violationErrors c).head? :=
  Validate_eq_head c

/-! ## Claims on the collectors and the archives -/

/-- C5: for a data view whose walk meets no error and whose file sizes are non-negative
and add up to an `int64`, vfsTotalFileSize returns, with no error, the sum of the sizes of
the entries that are not directories converted to kilobytes rounding up: the least `k`
with `1024 * k` at least the sum. -/
theorem C5_vfsTotalFileSize_rounds_up (fs : NameSpace) (hwalk : fs.WalksCleanly)
    (hsize : ∀ e ∈ fs.fileEntries, 0 ≤ e.info.Size) (hfit : fs.totalBytes < 2 ^ 63) :
    ∃ k, vfsTotalFileSize fs = (k, none) ∧ fs.totalBytes ≤ 1024 * k ∧
      ∀ j, fs.totalBytes ≤ 1024 * j → k ≤ j :=
  vfsTotalFileSize_spec fs hwalk hsize hfit

/-- C5 at a view with a directory and files of 1000 and 25 bytes: 1025 bytes give 2. -/
theorem C5_vfsTotalFileSize_rounds_up_witness :
    view1025.totalBytes = 1025 ∧ vfsTotalFileSize view1025 = (2, none) := by
  have ht : view1025.totalBytes = 1025 := by
    simp [NameSpace.totalBytes, NameSpace.fileEntries, view1025, viewOfFiles]
  obtain ⟨k, hk, hle, hmin⟩ := C5_vfsTotalFileSize_rounds_up view1025
    (by simp [NameSpace.WalksCleanly, view1025, viewOfFiles])
    (by simp [NameSpace.fileEntries, view1025, viewOfFiles])
    (by rw [ht]; norm_num)
  rw [ht] at hle hmin
  have h2 := hmin 2 (by norm_num)
  have hk2 : k = 2 := by omega
  exact ⟨ht, by rw [hk, hk2]⟩

/-- C6: for a data view whose walk meets no error and whose files all open and read to
their end, md5sums returns one line for each entry that is not a directory and none for a
directory, in walk order; each line is the checksum of the file's full content as 32
lowercase hexadecimal digits, two spaces, the entry's path and a newline. -/
theorem C6_md5sums_lists_every_file (hash : Hash) (fs : NameSpace)
    (hwalk : fs.WalksCleanly) (hread : fs.ReadsCleanly) :
    md5sums hash fs = (concatLines (fs.fileEntries.map (checksumLine hash fs)), none) ∧
    ∀ e ∈ fs.fileEntries,
      checksumLine hash fs e =
        EncodeToString (hash.Sum (fs.contentOf e.path)) ++ "  " ++ e.path ++ "\n" ∧
      (EncodeToString (hash.Sum (fs.contentOf e.path))).length = 32 ∧
      ∀ c ∈ (EncodeToString (hash.Sum (fs.contentOf e.path))).toList,
        c ∈ "0123456789abcdef".toList := by
  refine ⟨md5sums_spec hash fs hwalk hread, fun e _ => ⟨rfl, ?_, ?_⟩⟩
  · rw [EncodeToString_length, hash.size_eq]
  · exact EncodeToString_chars _

/-- C6 at a view with a directory and two files: two lines, none for the directory. -/
theorem C6_md5sums_lists_every_file_witness :
    md5sums lengthHash view1025 =
      (concatLines (view1025.fileEntries.map (checksumLine lengthHash view1025)), none) ∧
    view1025.fileEntries.map (fun e => e.path) = ["/a", "/b"] :=
  ⟨(C6_md5sums_lists_every_file lengthHash view1025
      (by simp [NameSpace.WalksCleanly, view1025, viewOfFiles])
      (fun e he => by
        have : e.path = "/a" ∨ e.path = "/b" := by
          simp [NameSpace.fileEntries, view1025, viewOfFiles] at he
          rcases he with rfl | rfl <;> simp
        rcases this with h | h <;> rw [h] <;> exact ⟨_, rfl⟩)).1,
   by simp [NameSpace.fileEntries, view1025, viewOfFiles]⟩

/-- C4: when createDeb returns no error, the container holds exactly three members, in
the order debian-binary, control.tar.gz, data.tar.gz; the payload of debian-binary is the
four bytes "2.0\n"; every member's header has uid 0, gid 0, mode 0600 and a declared size
equal to the number of payload bytes written for it; and writeFile returns an error
whenever the number of bytes copied differs from the declared size. -/
theorem C4_createDeb_three_members (env : Env) (target : String) (fspec : Files)
    (c : Control) (out : debWriter) (h : createDeb env target fspec c = (none, out)) :
    (out.members.map fun m => m.header.Name) =
      ["debian-binary", "control.tar.gz", "data.tar.gz"] ∧
    (out.members.head?.map fun m => m.body) = some [0x32, 0x2e, 0x30, 0x0a] ∧
    (∀ m ∈ out.members, m.header.Uid = 0 ∧ m.header.Gid = 0 ∧ m.header.Mode = 0o600 ∧
      m.header.Size = m.body.length) ∧
    (∀ (d d2 : debWriter) (name : String) (r : File) (size : Int),
      d.writeFile env name r size = (d2, none) → size = r.content.length) := by
  obtain ⟨b2, b3, hm⟩ := createDeb_ok env target fspec c out h
  rw [hm]
  refine ⟨rfl, rfl, ?_, fun d d2 name r size hw => (writeFile_ok env d d2 name r size hw).2⟩
  intro m hmem
  simp only [List.mem_cons, List.mem_singleton, List.not_mem_nil, or_false] at hmem
  rcases hmem with rfl | rfl | rfl
  · exact ⟨rfl, rfl, rfl, rfl⟩
  · exact ⟨rfl, rfl, rfl, rfl⟩
  · exact ⟨rfl, rfl, rfl, rfl⟩

/-- C4 in surroundings where nothing fails, for a control of the test suite and files
with one maintainer script: the build succeeds and the three members are as stated. -/
theorem C4_createDeb_three_members_witness :
    (createDeb quietEnv "dist" filesWithPreinst exampleBasic).1 = none ∧
    ((createDeb quietEnv "dist" filesWithPreinst exampleBasic).2.members.map
      fun m => m.header.Name) = ["debian-binary", "control.tar.gz", "data.tar.gz"] :=
  ⟨by decide,
   (C4_createDeb_three_members quietEnv "dist" filesWithPreinst exampleBasic
      (createDeb quietEnv "dist" filesWithPreinst exampleBasic).2
      (Prod.ext (by decide) rfl)).1⟩

/-- C9 on the code: a `preinst` script that the control view reports with mode 0755 is
written with mode 0755, not 0775, because the mode map is applied to the generated files
only; the generated members control, md5sums and conffiles do get mode 0644. -/
theorem C9_script_keeps_source_mode :
    memberModes (BuildArchive quietEnv exampleBasic "control.tar.gz" filesWithPreinst).2 =
      [("conffiles", 0o644), ("control", 0o644), ("md5sums", 0o644), ("preinst", 0o755)] ∧
    lookupMode modeMap "preinst" = some 0o775 := by
  decide

/-- C10 on the code: the conffiles manifest is made from the pattern "/etc/*/**" whatever
`Files.Conffiles` holds; with the single dash the file below `/etc` is still listed, and
with the pattern "/opt/*" the file below `/opt` is not listed; the manifest ends with a
blank line. -/
theorem C10_Conffiles_option_is_ignored (env : Env) (c : Control) (data control : NameSpace)
    (patterns : List String) :
    conffilesManifest env c { Data := data, Control := control, Conffiles := patterns } =
      conffilesManifest env c { Data := data, Control := control, Conffiles := [] } ∧
    conffilesManifest quietEnv exampleBasic
      { Data := dataWithConfig, Control := viewOfFiles [], Conffiles := ["-"] } =
      some "/etc/app/app.conf\n\n" ∧
    conffilesManifest quietEnv exampleBasic
      { Data := dataWithConfig, Control := viewOfFiles [], Conffiles := ["/opt/*"] } =
      some "/etc/app/app.conf\n\n" ∧
    Match "/opt/*" "/opt/tool.conf" = .ok true :=
  ⟨rfl, by decide, by decide, by decide⟩

/-- C11 on the code: when a maintainer script of the control view cannot be opened,
BuildArchive returns no error although the member `preinst` is written with a header of
10 bytes and no body, and createDeb returns no error either; when a file of the data view
cannot be opened, md5sums returns an empty manifest with no error and BuildArchive
returns no error, while createDataArchive, which looks at the result of the walk,
returns the error. -/
theorem C11_BuildArchive_swallows_walk_errors :
    (BuildArchive quietEnv exampleBasic "control.tar.gz" filesWithUnreadableScript).1 = none ∧
    memberSizes (BuildArchive quietEnv exampleBasic "control.tar.gz"
        filesWithUnreadableScript).2 =
      [("conffiles", 1, 1), ("control", 239, 239), ("md5sums", 0, 0), ("preinst", 10, 0)] ∧
    (createDeb quietEnv "dist" filesWithUnreadableScript exampleBasic).1 = none ∧
    md5sums lengthHash filesWithUnreadableData.Data = ("", none) ∧
    (BuildArchive quietEnv exampleBasic "control.tar.gz" filesWithUnreadableData).1 = none ∧
    (createDataArchive quietEnv "data.tar.gz" filesWithUnreadableData.Data).1 =
      some openFailed := by
  decide

/-- C12: debFilename is the package, "-", the version, "-", the architecture and ".deb",
in that order; for mkdeb, 0.1.0 and amd64 it is "mkdeb-0.1.0-amd64.deb". -/
theorem C12_debFilename_format (c : Control) :
    c.debFilename = c.Package ++ "-" ++ c.Version ++ "-" ++ c.Architecture ++ ".deb" ∧
    Control.debFilename
      { Control.zero with Package := "mkdeb", Version := "0.1.0", Architecture := "amd64" } =
      "mkdeb-0.1.0-amd64.deb" := by
  constructor
  · unfold Control.debFilename Sprintf
    simp [sprintfChars]
    apply String.ext
    simp
  · decide

end Deb
